import Mathlib

/-!
Verification of the website-availability monitoring service.

Shallow embedding of the core services of the repository:

* `Monitoring` — `backend/app/services/monitoring.py`
  (`MonitoringService.check_website`, `perform_check`, `_manage_downtime_window`),
* `Sched` — `backend/app/services/scheduler.py`
  (`CircuitBreaker`, `SchedulerService._check_website_wrapper`),
* `Sla` — `backend/app/services/sla_analytics.py`
  (`SLAAnalyticsService.calculate_metrics`, `get_bucketed_metrics`, `_generate_buckets`),
* `DebugSvc` — `backend/app/services/debug_service.py` and
  `backend/app/services/debug_session_service.py`.

Modelling conventions, used throughout:

* Points in time and durations are rationals (seconds).  Python `datetime`
  values are timezone-aware UTC and are compared/subtracted chronologically,
  which the rational timeline models exactly; `float` durations and response
  times are modelled as exact rationals.
* The several `datetime.now(timezone.utc)` calls inside one scheduler firing
  (one `perform_check` call) are modelled as a single instant `now`, the
  wall-clock time of that firing.
* SQLAlchemy tables are lists of rows (in insertion order); `query(...).first()`
  is `List.find?`; a mutating `db.commit` is a functional state update, and a
  raising path is `Except.error` (the transaction is rolled back, so the error
  carries no new state).
* For the bucketing code, which manipulates calendar fields directly
  (`replace(hour=0, ...)`, `month + 1`, `weekday()`), datetimes are embedded
  structurally as `PyDateTime` records of calendar fields, linearised through
  Python's own `toordinal` formula where the source compares or subtracts them.
-/

namespace Monitoring

/-- A row of `downtime_windows` (`backend/app/models/website.py`), restricted to
one target: `start_time`, nullable `end_time` (`NULL` = window still open). -/
structure DowntimeWindow where
  start_time : ℚ
  end_time : Option ℚ
deriving DecidableEq, Repr

/-- A row of `monitor_checks` (`backend/app/models/website.py`), restricted to
one target. -/
structure MonitorCheck where
  timestamp : ℚ
  status_code : Option ℕ
  response_time : Option ℚ
  is_available : Bool
  error_message : Option String
deriving DecidableEq, Repr

/-- Outcome of the single `client.get(website.url)` call inside
`MonitoringService.check_website`: either an HTTP response with a status code,
or one of the exception classes the service catches
(`httpx.TimeoutException`, `httpx.ConnectError`, any other `Exception`).
`elapsed` is the measured wall-clock duration of the request in seconds
(`end_time - start_time` in the source); `detail` is `str(e)`. -/
inductive ProbeResult where
  | response (status : ℕ) (elapsed : ℚ)
  | timeoutExc (detail : String) (elapsed : ℚ)
  | connectExc (detail : String) (elapsed : ℚ)
  | otherExc (detail : String) (elapsed : ℚ)
deriving DecidableEq, Repr

/-- The probe raised an exception (any catch branch of `check_website`). -/
def ProbeResult.isError : ProbeResult → Bool
  | .response _ _ => false
  | _ => true

/-- `MonitoringService.check_website`: returns
`(is_available, status_code, response_time, error_message)`.  A total
function of the probe outcome — every exception branch returns a tuple, so no
exception propagates to the caller.  The Python `f"..."` formatting of the
error messages is abstracted by plain string concatenation of the exception
detail. -/
def check_website : ProbeResult → Bool × Option ℕ × Option ℚ × Option String
  | .response status elapsed =>
      (decide (200 ≤ status) && decide (status < 400), some status, some elapsed, none)
  | .timeoutExc detail elapsed =>
      (false, none, some elapsed, some ("Timeout: " ++ detail))
  | .connectExc detail elapsed =>
      (false, none, some elapsed, some ("Connection error: " ++ detail))
  | .otherExc detail elapsed =>
      (false, none, some elapsed, some ("Unexpected error: " ++ detail))

/-- The `db.query(DowntimeWindow).filter(website_id == _, end_time.is_(None)).first()`
lookup of `_manage_downtime_window`: first window row with no `end_time`. -/
def findOpenWindow (windows : List DowntimeWindow) : Option DowntimeWindow :=
  windows.find? (fun w => w.end_time.isNone)

/-- The `open_window.end_time = end_time` mutation: sets `end_time := now` on
the first open row (the row returned by `.first()`), leaving all others
unchanged. -/
def closeFirstOpen (now : ℚ) : List DowntimeWindow → List DowntimeWindow
  | [] => []
  | w :: ws =>
      if w.end_time.isNone then { w with end_time := some now } :: ws
      else w :: closeFirstOpen now ws

/-- `MonitoringService._manage_downtime_window`: fold one probe outcome's
availability into the downtime-window table.  `now` is the firing instant
(the source's `datetime.now(timezone.utc)`). -/
def manage_downtime_window (windows : List DowntimeWindow) (is_available : Bool)
    (now : ℚ) : List DowntimeWindow :=
  match findOpenWindow windows with
  | none =>
      if !is_available then windows ++ [{ start_time := now, end_time := none }]
      else windows
  | some _ =>
      if is_available then closeFirstOpen now windows
      else windows

/-- Persisted state for one target: its check rows and downtime-window rows. -/
structure TargetState where
  checks : List MonitorCheck
  windows : List DowntimeWindow
deriving DecidableEq, Repr

/-- `MonitoringService.perform_check`: run `check_website`, insert the
`MonitorCheck` row, manage downtime windows, commit; returns the new state and
the inserted check.  `now` is the firing instant. -/
def perform_check (st : TargetState) (pr : ProbeResult) (now : ℚ) :
    TargetState × MonitorCheck :=
  let r := check_website pr
  let monitor_check : MonitorCheck :=
    { timestamp := now
      status_code := r.2.1
      response_time := r.2.2.1
      is_available := r.1
      error_message := r.2.2.2 }
  ({ checks := st.checks ++ [monitor_check]
     windows := manage_downtime_window st.windows r.1 now },
   monitor_check)

/-- Number of open (`end_time = NULL`) downtime windows. -/
def openWindowCount (windows : List DowntimeWindow) : ℕ :=
  (windows.filter (fun w => w.end_time.isNone)).length

/-- A sequence of probe firings, folded through `perform_check` starting from
an empty table pair (fresh target). -/
def runChecks (steps : List (ProbeResult × ℚ)) : TargetState :=
  steps.foldl (fun st s => (perform_check st s.1 s.2).1) { checks := [], windows := [] }

end Monitoring

namespace Sched

open Monitoring

/-- `CircuitBreaker` state (`backend/app/services/scheduler.py`).  The two
Python dicts are modelled as total maps: `failures` with `dict.get(id, 0)`
semantics (absent = `0`), `blocked_until` with absent = `none`.  The source
stores Unix timestamps (`datetime.now(timezone.utc).timestamp()`), modelled as
rational seconds.  Defaults: `failure_threshold = 5`, `timeout = 300`. -/
structure CircuitBreaker where
  failure_threshold : ℕ
  timeout : ℚ
  failures : ℤ → ℕ
  blocked_until : ℤ → Option ℚ

/-- `CircuitBreaker()` with the default constructor arguments and empty dicts. -/
def CircuitBreaker.init : CircuitBreaker :=
  { failure_threshold := 5
    timeout := 300
    failures := fun _ => 0
    blocked_until := fun _ => none }

/-- `CircuitBreaker.record_failure`: increment the failure count; if it reaches
the threshold, set `blocked_until = now + timeout`. -/
def record_failure (cb : CircuitBreaker) (website_id : ℤ) (now : ℚ) : CircuitBreaker :=
  let failures' := Function.update cb.failures website_id (cb.failures website_id + 1)
  if cb.failure_threshold ≤ failures' website_id then
    { cb with
      failures := failures'
      blocked_until := Function.update cb.blocked_until website_id (some (now + cb.timeout)) }
  else { cb with failures := failures' }

/-- `CircuitBreaker.record_success`: delete both dict entries for the id. -/
def record_success (cb : CircuitBreaker) (website_id : ℤ) : CircuitBreaker :=
  { cb with
    failures := Function.update cb.failures website_id 0
    blocked_until := Function.update cb.blocked_until website_id none }

/-- `CircuitBreaker.is_blocked`: `false` if no block entry; if the block has
expired (`now ≥ blocked_until`), delete the entry, reset the failure count to
`0` and return `false`; otherwise `true`.  Returns the possibly-updated
breaker alongside the answer (the method mutates `self`). -/
def is_blocked (cb : CircuitBreaker) (website_id : ℤ) (now : ℚ) :
    Bool × CircuitBreaker :=
  match cb.blocked_until website_id with
  | none => (false, cb)
  | some t =>
      if t ≤ now then
        (false,
         { cb with
           blocked_until := Function.update cb.blocked_until website_id none
           failures := Function.update cb.failures website_id 0 })
      else (true, cb)

/-- What one scheduled firing encounters after passing the circuit breaker:
either `perform_check` runs to completion on a probe outcome (`probe pr` —
note every probe exception is already converted to a `Check` inside
`check_website`), or an exception escapes `perform_check` itself (its
`db.commit` path failing), which `_check_website_wrapper` catches. -/
inductive FiringEvent where
  | probe (pr : ProbeResult)
  | commitFailure
deriving DecidableEq, Repr

/-- Scheduler-visible state for one target: breaker plus the target's store. -/
structure SchedState where
  breaker : CircuitBreaker
  db : TargetState

/-- `SchedulerService._check_website_wrapper` for one existing, enabled
website: consult the circuit breaker (which may clear an expired block); if
blocked, return with no store access; otherwise run `perform_check` and record
success, or — when an exception escapes `perform_check` — roll back (store
unchanged) and record failure. -/
def check_website_wrapper (st : SchedState) (website_id : ℤ) (ev : FiringEvent)
    (now : ℚ) : SchedState :=
  let b := is_blocked st.breaker website_id now
  if b.1 then { st with breaker := b.2 }
  else
    match ev with
    | .probe pr =>
        { breaker := record_success b.2 website_id
          db := (perform_check st.db pr now).1 }
    | .commitFailure =>
        { breaker := record_failure b.2 website_id now
          db := st.db }

/-- Fold a sequence of scheduled firings (event, wall-clock instant) for one
target, starting from a fresh breaker and empty store. -/
def runFirings (website_id : ℤ) (events : List (FiringEvent × ℚ)) : SchedState :=
  events.foldl (fun st e => check_website_wrapper st website_id e.1 e.2)
    { breaker := CircuitBreaker.init, db := { checks := [], windows := [] } }

end Sched

namespace Sla

/-- A row of `monitor_checks` as read by `sla_analytics.py`
(`backend/app/models/monitoring.py` draft: `checked_at`, `is_up`,
`response_time_ms`), restricted to one monitor id. -/
structure MonitorCheck where
  checked_at : ℚ
  is_up : Bool
  response_time_ms : Option ℚ
deriving DecidableEq, Repr

/-- A row of `downtime_windows` as read by `sla_analytics.py`:
`started_at`, nullable `ended_at`. -/
structure DowntimeWindow where
  started_at : ℚ
  ended_at : Option ℚ
deriving DecidableEq, Repr

/-- `np.percentile(a, p)` with the default linear-interpolation method:
sort ascending, take `h = (n - 1) * p / 100`, and interpolate between the
order statistics at `⌊h⌋` and `⌊h⌋ + 1`. -/
def np_percentile (xs : List ℚ) (p : ℚ) : ℚ :=
  let s := xs.mergeSort (fun a b => a ≤ b)
  let h : ℚ := ((s.length : ℚ) - 1) * p / 100
  let i : ℕ := (⌊h⌋).toNat
  let lo := s.getD i 0
  let hi := s.getD (i + 1) lo
  lo + (h - (i : ℚ)) * (hi - lo)

/-- `np.mean`: arithmetic mean. -/
def np_mean (xs : List ℚ) : ℚ := xs.sum / (xs.length : ℚ)

/-- The `checks` query of `calculate_metrics`: rows of the monitor with
`start_time <= checked_at <= end_time`. -/
def rangeChecks (checks : List MonitorCheck) (start_time end_time : ℚ) :
    List MonitorCheck :=
  checks.filter (fun c => decide (start_time ≤ c.checked_at) && decide (c.checked_at ≤ end_time))

/-- `response_times`: response times of the successful checks in range that
have one (`is_up` and `response_time_ms` not `NULL`). -/
def responseTimes (checks : List MonitorCheck) (start_time end_time : ℚ) : List ℚ :=
  ((rangeChecks checks start_time end_time).filter (fun c => c.is_up)).filterMap
    (fun c => c.response_time_ms)

/-- The `downtime_windows` query filter: `started_at <= end_time` and
(`ended_at >= start_time` or `ended_at` is `NULL`). -/
def overlapsQuery (start_time end_time : ℚ) (w : DowntimeWindow) : Bool :=
  (decide (w.started_at ≤ end_time) &&
    (match w.ended_at with
     | some e => decide (start_time ≤ e)
     | none => false)) ||
  (decide (w.started_at ≤ end_time) && w.ended_at.isNone)

/-- The loop body of the downtime sum: clip the window to the query range
(an open window extends to `end_time`) and add the length when positive. -/
def windowContribution (start_time end_time : ℚ) (w : DowntimeWindow) : ℚ :=
  let window_start := max w.started_at start_time
  let window_end := min (w.ended_at.getD end_time) end_time
  if window_start < window_end then window_end - window_start else 0

/-- `total_downtime_seconds` as computed by `calculate_metrics`: the
contribution sum over the windows passing the query filter. -/
def totalDowntime (windows : List DowntimeWindow) (start_time end_time : ℚ) : ℚ :=
  ((windows.filter (overlapsQuery start_time end_time)).map
    (windowContribution start_time end_time)).sum

/-- Result record of `calculate_metrics` (`SLAMetrics` dataclass).  The
percentile dict is a list of `(p, value)` pairs in request order. -/
structure SLAMetrics where
  start_time : ℚ
  end_time : ℚ
  availability_percent : ℚ
  mean_response_time_ms : Option ℚ
  percentile_response_times : List (ℕ × Option ℚ)
  failure_count : ℕ
  total_downtime_seconds : ℚ
  total_checks : ℕ
  successful_checks : ℕ
deriving DecidableEq, Repr

/-- `SLAAnalyticsService.calculate_metrics` (the computation on a cache miss;
the TTL cache only replays a previous result and is not modelled).
`percentiles` defaults to `[50, 75, 90, 95, 99]` in the source. -/
def calculate_metrics (checks : List MonitorCheck) (windows : List DowntimeWindow)
    (start_time end_time : ℚ) (percentiles : List ℕ) : SLAMetrics :=
  let total_period_seconds := end_time - start_time
  let cs := rangeChecks checks start_time end_time
  let successful := cs.filter (fun c => c.is_up)
  let failed := cs.filter (fun c => !c.is_up)
  let response_times := responseTimes checks start_time end_time
  let total_downtime_seconds := totalDowntime windows start_time end_time
  let uptime_seconds := total_period_seconds - total_downtime_seconds
  { start_time := start_time
    end_time := end_time
    availability_percent :=
      if 0 < total_period_seconds then uptime_seconds / total_period_seconds * 100
      else 100
    mean_response_time_ms :=
      if response_times.isEmpty then none else some (np_mean response_times)
    percentile_response_times :=
      percentiles.map (fun p =>
        (p, if response_times.isEmpty then none
            else some (np_percentile response_times (p : ℚ))))
    failure_count := failed.length
    total_downtime_seconds := total_downtime_seconds
    total_checks := cs.length
    successful_checks := successful.length }

end Sla

namespace Sla

/-- A Python `datetime` as the bucketing code manipulates it: a record of
calendar fields.  (`fold`/`tzinfo` play no role in `_generate_buckets`;
the year bound `year ≤ 9999` and overflow on `timedelta` arithmetic past it
are not modelled.) -/
structure PyDateTime where
  year : ℤ
  month : ℤ
  day : ℤ
  hour : ℤ
  minute : ℤ
  second : ℤ
  microsecond : ℤ
deriving DecidableEq, Repr

/-- Python `datetime._is_leap`. -/
def isLeap (y : ℤ) : Bool := y % 4 = 0 && (y % 100 ≠ 0 || y % 400 = 0)

/-- Python `datetime._DAYS_BEFORE_MONTH[m]` (non-leap cumulative days). -/
def daysBeforeMonth (m : ℤ) : ℤ :=
  if m = 1 then 0 else if m = 2 then 31 else if m = 3 then 59 else if m = 4 then 90
  else if m = 5 then 120 else if m = 6 then 151 else if m = 7 then 181
  else if m = 8 then 212 else if m = 9 then 243 else if m = 10 then 273
  else if m = 11 then 304 else 334

/-- Python `datetime._days_in_month`. -/
def days_in_month (y m : ℤ) : ℤ :=
  if m = 2 then (if isLeap y then 29 else 28)
  else if m = 4 ∨ m = 6 ∨ m = 9 ∨ m = 11 then 30
  else 31

/-- Python `date.toordinal()` (`_ymd2ord`): days since 0000-12-31 of the
proleptic Gregorian calendar, via `_days_before_year + _days_before_month + day`.
(`ℤ` division is Euclidean, which agrees with Python floor division `//` for
the positive divisors used here.) -/
def ymd2ord (y m d : ℤ) : ℤ :=
  365 * (y - 1) + (y - 1) / 4 - (y - 1) / 100 + (y - 1) / 400
    + daysBeforeMonth m + (if 2 < m ∧ isLeap y then 1 else 0) + d

/-- `toordinal` of a `PyDateTime`'s date part. -/
def toordinal (t : PyDateTime) : ℤ := ymd2ord t.year t.month t.day

/-- The chronological value of a `PyDateTime` in seconds (Python compares and
subtracts `datetime`s chronologically; on valid datetimes this linearisation
is that order). -/
def toSeconds (t : PyDateTime) : ℚ :=
  86400 * (toordinal t : ℚ) + 3600 * (t.hour : ℚ) + 60 * (t.minute : ℚ)
    + (t.second : ℚ) + (t.microsecond : ℚ) / 1000000

/-- The same instant in whole microseconds (an integer: `datetime` stores
microsecond precision, so this determines the chronological order exactly). -/
def toMicros (t : PyDateTime) : ℤ :=
  1000000 * (86400 * toordinal t + 3600 * t.hour + 60 * t.minute + t.second)
    + t.microsecond

/-- Python `datetime` comparison `a < b`. -/
def pylt (a b : PyDateTime) : Bool := decide (toMicros a < toMicros b)

/-- Python `datetime` comparison `a <= b`. -/
def pyle (a b : PyDateTime) : Bool := decide (toMicros a ≤ toMicros b)

/-- Python `min(a, b)` on datetimes (returns the first argument on ties). -/
def pymin (a b : PyDateTime) : PyDateTime := if pylt b a then b else a

/-- Python `max(a, b)` on datetimes (returns the first argument on ties). -/
def pymax (a b : PyDateTime) : PyDateTime := if pylt a b then b else a

/-- The field ranges every Python `datetime` object guarantees
(`MINYEAR ≤ year`, month in 1..12, day in 1..days-in-month, time fields in
range).  All datetimes handed to `_generate_buckets` are real `datetime`
objects, hence valid. -/
def Valid (t : PyDateTime) : Prop :=
  1 ≤ t.year ∧ 1 ≤ t.month ∧ t.month ≤ 12 ∧ 1 ≤ t.day ∧
    t.day ≤ days_in_month t.year t.month ∧
    0 ≤ t.hour ∧ t.hour < 24 ∧ 0 ≤ t.minute ∧ t.minute < 60 ∧
    0 ≤ t.second ∧ t.second < 60 ∧ 0 ≤ t.microsecond ∧ t.microsecond < 1000000

instance : DecidablePred Valid := fun t => by unfold Valid; infer_instance

/-- `t.replace(hour=0, minute=0, second=0, microsecond=0)`. -/
def replaceMidnight (t : PyDateTime) : PyDateTime :=
  { t with hour := 0, minute := 0, second := 0, microsecond := 0 }

/-- `t.replace(day=1, hour=0, minute=0, second=0, microsecond=0)`. -/
def replaceMonthStart (t : PyDateTime) : PyDateTime :=
  { t with day := 1, hour := 0, minute := 0, second := 0, microsecond := 0 }

/-- `t + timedelta(days=1)` on the calendar fields (time of day unchanged). -/
def addOneDay (t : PyDateTime) : PyDateTime :=
  if t.day < days_in_month t.year t.month then { t with day := t.day + 1 }
  else if t.month < 12 then { t with month := t.month + 1, day := 1 }
  else { t with year := t.year + 1, month := 1, day := 1 }

/-- `t + timedelta(days=n)`. -/
def addDays (n : ℕ) (t : PyDateTime) : PyDateTime := addOneDay^[n] t

/-- `t - timedelta(days=1)`. -/
def subOneDay (t : PyDateTime) : PyDateTime :=
  if 1 < t.day then { t with day := t.day - 1 }
  else if 1 < t.month then
    { t with month := t.month - 1, day := days_in_month t.year (t.month - 1) }
  else { t with year := t.year - 1, month := 12, day := 31 }

/-- `t - timedelta(days=n)`. -/
def subDays (n : ℕ) (t : PyDateTime) : PyDateTime := subOneDay^[n] t

/-- Python `date.weekday()`: Monday = 0 … Sunday = 6. -/
def weekday (t : PyDateTime) : ℤ := (toordinal t + 6) % 7

/-- The `month == 12` rollover of `_generate_buckets`:
`current.replace(year=current.year + 1, month=1)` /
`current.replace(month=current.month + 1)`. -/
def nextMonthD (current : PyDateTime) : PyDateTime :=
  if current.month = 12 then { current with year := current.year + 1, month := 1 }
  else { current with month := current.month + 1 }

/-- `bucket_type` (`Literal["day", "week", "month"]`). -/
inductive BucketType where
  | day
  | week
  | month
deriving DecidableEq, Repr

/-- The `"day"` while-loop of `_generate_buckets`.  The loop is embedded with
a fuel argument bounding its iteration count; `generate_buckets` supplies
fuel exceeding the number of day steps from `current` to `end_time`, so the
recursion always stops because the `current < end_time` guard fails, exactly
as the source loop does. -/
def dayLoop (start_time end_time : PyDateTime) (fuel : ℕ)
    (current : PyDateTime) : List (PyDateTime × PyDateTime) :=
  match fuel with
  | 0 => []
  | fuel + 1 =>
      if pylt current end_time then
        let bucket_end := pymin (addOneDay current) end_time
        (if pyle start_time current then [(current, bucket_end)] else []) ++
          dayLoop start_time end_time fuel (addOneDay current)
      else []

/-- The `"week"` while-loop of `_generate_buckets` (step `timedelta(weeks=1)`,
first bucket clipped to `max(current, start_time)`). -/
def weekLoop (start_time end_time : PyDateTime) (fuel : ℕ)
    (current : PyDateTime) : List (PyDateTime × PyDateTime) :=
  match fuel with
  | 0 => []
  | fuel + 1 =>
      if pylt current end_time then
        let bucket_end := pymin (addDays 7 current) end_time
        (if pyle start_time current || pylt start_time bucket_end then
          [(pymax current start_time, bucket_end)]
         else []) ++
          weekLoop start_time end_time fuel (addDays 7 current)
      else []

/-- The `"month"` while-loop of `_generate_buckets`. -/
def monthLoop (start_time end_time : PyDateTime) (fuel : ℕ)
    (current : PyDateTime) : List (PyDateTime × PyDateTime) :=
  match fuel with
  | 0 => []
  | fuel + 1 =>
      if pylt current end_time then
        let next_month := nextMonthD current
        let bucket_end := pymin next_month end_time
        (if pyle start_time current then [(current, bucket_end)] else []) ++
          monthLoop start_time end_time fuel next_month
      else []

/-- Fuel sufficient for every loop above: one unit per day between `current`
and `end_time`, plus one (week steps cover 7 days, month steps at least 28). -/
def loopFuel (current end_time : PyDateTime) : ℕ :=
  (toordinal end_time - toordinal current).toNat + 1

/-- The initial `current` of the `"week"` branch:
`(start_time - timedelta(days=start_time.weekday())).replace(hour=0, ...)` —
the Monday-00:00 boundary at or before `start_time`. -/
def weekFloor (t : PyDateTime) : PyDateTime :=
  replaceMidnight (subDays (weekday t).toNat t)

/-- `SLAAnalyticsService._generate_buckets`. -/
def generate_buckets (start_time end_time : PyDateTime) :
    BucketType → List (PyDateTime × PyDateTime)
  | .day =>
      let c := replaceMidnight start_time
      dayLoop start_time end_time (loopFuel c end_time) c
  | .week =>
      let c := weekFloor start_time
      weekLoop start_time end_time (loopFuel c end_time) c
  | .month =>
      let c := replaceMonthStart start_time
      monthLoop start_time end_time (loopFuel c end_time) c

/-- `SLAAnalyticsService.get_bucketed_metrics` (cache-miss path): one
`calculate_metrics` call per generated bucket. -/
def get_bucketed_metrics (checks : List MonitorCheck) (windows : List DowntimeWindow)
    (start_time end_time : PyDateTime) (bucket_type : BucketType)
    (percentiles : List ℕ) : List SLAMetrics :=
  (generate_buckets start_time end_time bucket_type).map (fun b =>
    calculate_metrics checks windows (toSeconds b.1) (toSeconds b.2) percentiles)

/-- Midnight-aligned (the day-bucket boundary shape). -/
def isMidnight (t : PyDateTime) : Bool :=
  t.hour = 0 && t.minute = 0 && t.second = 0 && t.microsecond = 0

/-- ISO Monday-00:00-aligned (the week-bucket boundary shape). -/
def isWeekBoundary (t : PyDateTime) : Bool := isMidnight t && weekday t = 0

/-- First-of-month-00:00-aligned (the month-bucket boundary shape). -/
def isMonthBoundary (t : PyDateTime) : Bool := t.day = 1 && isMidnight t

/-- The first midnight boundary at or after `t` (`t` itself when aligned). -/
def firstDayBoundary (t : PyDateTime) : PyDateTime :=
  if isMidnight t then t else addOneDay (replaceMidnight t)

/-- The first first-of-month-00:00 boundary at or after `t`. -/
def firstMonthBoundary (t : PyDateTime) : PyDateTime :=
  if isMonthBoundary t then t else nextMonthD (replaceMonthStart t)

/-- The spec's downtime formula for one window over `[start, end]`:
`max(0, min(window.ended_at or end, end) − max(window.started_at, start))`,
an open window extending to `end`. -/
def clampedOverlap (start_time end_time : ℚ) (w : DowntimeWindow) : ℚ :=
  max 0 (min (w.ended_at.getD end_time) end_time - max w.started_at start_time)

end Sla

namespace DebugSvc

/-- `DebugSession.status` values occurring across the two drafts
(`pending/active/stopped/failed/timeout` in `models/debug_session.py`,
`completed` written by `debug_service.py`). -/
inductive SessionStatus where
  | pending
  | active
  | stopped
  | failed
  | timeoutS
  | completed
deriving DecidableEq, Repr

/-- A `websites` row as `DebugService.start_debug_session` consults it
(only the id is read). -/
structure Website where
  id : ℤ
deriving DecidableEq, Repr

/-- A `debug_sessions` row as `DebugService` uses it (target-id attached
draft): owning website id and status. -/
structure DebugSession where
  id : ℤ
  website_id : ℤ
  status : SessionStatus
deriving DecidableEq, Repr

/-- The store state `DebugService.start_debug_session` touches. -/
structure DebugDb where
  websites : List Website
  debug_sessions : List DebugSession
deriving DecidableEq, Repr

/-- The two `ValueError`s of `start_debug_session`, per the spec's taxonomy:
website id does not resolve / an active session already exists. -/
inductive DebugError where
  | notFound
  | conflict
deriving DecidableEq, Repr

/-- `DebugService.start_debug_session`: look up the website (`not-found` when
missing), look for an `active` session of that website (`conflict` when one
exists), otherwise insert a new `active` session and return it.  `new_id` is
the autogenerated row id.  A raising path is an `Except.error`, so no state
survives it. -/
def start_debug_session (db : DebugDb) (website_id : ℤ) (new_id : ℤ) :
    Except DebugError (DebugDb × DebugSession) :=
  match db.websites.find? (fun w => decide (w.id = website_id)) with
  | none => .error .notFound
  | some _ =>
      match db.debug_sessions.find? (fun s =>
          decide (s.website_id = website_id) && decide (s.status = SessionStatus.active)) with
      | some _ => .error .conflict
      | none =>
          let debug_session : DebugSession :=
            { id := new_id, website_id := website_id, status := .active }
          .ok ({ db with debug_sessions := db.debug_sessions ++ [debug_session] },
               debug_session)

end DebugSvc

namespace DebugSess

/-- A `debug_sessions` row of the target-URL-attached draft
(`models/debug_session.py`), the fields `create_session` writes. -/
structure DebugSession where
  target_url : String
  status : DebugSvc.SessionStatus
  duration_limit : Option ℤ
deriving DecidableEq, Repr

/-- Python truthiness of an `Optional[int]`: `None` and `0` are both falsy. -/
def intTruthy : Option ℤ → Bool
  | none => false
  | some v => decide (v ≠ 0)

/-- `DebugSessionService.create_session`: cap the duration limit at
`settings.debug_session_max_duration` only when the limit is truthy and
exceeds it (`if duration_limit and duration_limit > ...`), then insert a
`pending` session row. -/
def create_session (target_url : String) (duration_limit : Option ℤ)
    (max_duration : ℤ) : DebugSession :=
  let duration_limit' :=
    if intTruthy duration_limit && decide (max_duration < duration_limit.getD 0) then
      some max_duration
    else duration_limit
  { target_url := target_url, status := .pending, duration_limit := duration_limit' }

/-- `ActiveDebugSession.start_monitoring`, reduced to its observable decision:
whether the deadline task is launched (`if duration_limit:` — so only for a
truthy limit is `_timeout_task` created, and only then can the session be
auto-stopped by `_timeout_handler`). -/
def start_monitoring (duration_limit : Option ℤ) : Bool := intTruthy duration_limit

end DebugSess

/-! ## Helper lemmas for the downtime-window state machine -/

namespace Monitoring

theorem findOpenWindow_none_iff (ws : List DowntimeWindow) :
    findOpenWindow ws = none ↔ ∀ w ∈ ws, w.end_time ≠ none := by
  unfold findOpenWindow
  rw [List.find?_eq_none]
  constructor
  · intro h w hw
    have := h w hw
    simpa [Option.isNone_iff_eq_none] using this
  · intro h w hw
    simpa [Option.isNone_iff_eq_none] using h w hw

theorem findOpenWindow_some_open {ws : List DowntimeWindow} {w : DowntimeWindow}
    (h : findOpenWindow ws = some w) : w.end_time = none := by
  have := List.find?_some h
  simpa [Option.isNone_iff_eq_none] using this

theorem closeFirstOpen_spec (now : ℚ) :
    ∀ (ws : List DowntimeWindow) (w : DowntimeWindow), findOpenWindow ws = some w →
      ∃ i, ws[i]? = some w ∧
        closeFirstOpen now ws = ws.set i { w with end_time := some now }
  | [], w, h => by simp [findOpenWindow] at h
  | w₀ :: ws, w, h => by
    by_cases h₀ : w₀.end_time.isNone
    · have hw : w = w₀ := by
        have := h
        unfold findOpenWindow at this
        rw [List.find?_cons] at this
        simp only [h₀, cond_true] at this
        exact (Option.some_inj.mp this).symm
      subst hw
      refine ⟨0, by simp, ?_⟩
      simp [closeFirstOpen, h₀]
    · have htail : findOpenWindow ws = some w := by
        have := h
        unfold findOpenWindow at this ⊢
        rw [List.find?_cons] at this
        simpa only [h₀, Bool.false_eq_true, cond_false] using this
      obtain ⟨i, hi, heq⟩ := closeFirstOpen_spec now ws w htail
      refine ⟨i + 1, by simpa using hi, ?_⟩
      simp [closeFirstOpen, h₀, heq]

theorem openWindowCount_append_open (ws : List DowntimeWindow) (now : ℚ) :
    openWindowCount (ws ++ [{ start_time := now, end_time := none }]) =
      openWindowCount ws + 1 := by
  simp [openWindowCount, List.filter_append]

theorem openWindowCount_eq_zero {ws : List DowntimeWindow}
    (h : findOpenWindow ws = none) : openWindowCount ws = 0 := by
  unfold openWindowCount
  rw [List.length_eq_zero, List.filter_eq_nil_iff]
  intro w hw
  have := (findOpenWindow_none_iff ws).mp h w hw
  simpa [Option.isNone_iff_eq_none] using this

theorem openWindowCount_closeFirstOpen (now : ℚ) :
    ∀ (ws : List DowntimeWindow), findOpenWindow ws ≠ none →
      openWindowCount (closeFirstOpen now ws) + 1 = openWindowCount ws
  | [], h => by simp [findOpenWindow] at h
  | w₀ :: ws, h => by
    by_cases h₀ : w₀.end_time.isNone
    · simp [closeFirstOpen, h₀, openWindowCount, List.filter_cons]
    · have htail : findOpenWindow ws ≠ none := by
        unfold findOpenWindow at h ⊢
        rw [List.find?_cons] at h
        simpa only [h₀, Bool.false_eq_true, cond_false] using h
      have ih := openWindowCount_closeFirstOpen now ws htail
      simp only [closeFirstOpen, h₀, if_neg]
      simp only [openWindowCount, List.filter_cons] at ih ⊢
      rcases hb : (w₀.end_time.isNone : Bool) with _ | _
      · simpa [hb] using ih
      · simp [hb] at h₀

theorem openWindowCount_manage_le_one (ws : List DowntimeWindow) (b : Bool) (now : ℚ)
    (h : openWindowCount ws ≤ 1) :
    openWindowCount (manage_downtime_window ws b now) ≤ 1 := by
  unfold manage_downtime_window
  rcases hf : findOpenWindow ws with _ | w
  · rcases b with _ | _
    · simp only [Bool.not_false, if_pos]
      rw [openWindowCount_append_open, openWindowCount_eq_zero hf]
    · simpa using h
  · rcases b with _ | _
    · simpa using h
    · simp only [if_pos]
      have := openWindowCount_closeFirstOpen now ws (by simp [hf])
      omega

theorem foldl_perform_check_inv (P : TargetState → Prop)
    (hstep : ∀ st pr now, P st → P (perform_check st pr now).1) :
    ∀ (steps : List (ProbeResult × ℚ)) (st : TargetState), P st →
      P (steps.foldl (fun st s => (perform_check st s.1 s.2).1) st)
  | [], st, h => h
  | s :: steps, st, h =>
      foldl_perform_check_inv P hstep steps _ (hstep st s.1 s.2 h)

end Monitoring

/-! ## Claim theorems: downtime-window tracker -/

open Monitoring in
/-- C1.  For every probe outcome folded by the downtime tracker for one
target: with no open window and an unavailable check, a new window is
inserted with `start_time` equal to the check's timestamp and `end_time`
null; with no open window and an available check, nothing changes; with an
open window and an unavailable check, nothing changes; with an open window
and an available check, the open window's `end_time` is set to the check's
timestamp.  (`perform_check` stamps the check and the window mutation with
the same firing instant `now`.) -/
theorem C1_downtime_window_transitions (st : TargetState) (pr : ProbeResult) (now : ℚ) :
    (perform_check st pr now).2.timestamp = now ∧
    (findOpenWindow st.windows = none → (perform_check st pr now).2.is_available = false →
      (perform_check st pr now).1.windows =
        st.windows ++ [{ start_time := now, end_time := none }]) ∧
    (findOpenWindow st.windows = none → (perform_check st pr now).2.is_available = true →
      (perform_check st pr now).1.windows = st.windows) ∧
    (∀ w, findOpenWindow st.windows = some w →
      (perform_check st pr now).2.is_available = false →
      (perform_check st pr now).1.windows = st.windows) ∧
    (∀ w, findOpenWindow st.windows = some w →
      (perform_check st pr now).2.is_available = true →
      w.end_time = none ∧
      ∃ i, st.windows[i]? = some w ∧
        (perform_check st pr now).1.windows =
          st.windows.set i { w with end_time := some now }) := by
  refine ⟨rfl, ?_, ?_, ?_, ?_⟩
  · intro hf ha
    have ha' : (check_website pr).1 = false := ha
    simp [perform_check, manage_downtime_window, hf, ha']
  · intro hf ha
    have ha' : (check_website pr).1 = true := ha
    simp [perform_check, manage_downtime_window, hf, ha']
  · intro w hf ha
    have ha' : (check_website pr).1 = false := ha
    simp [perform_check, manage_downtime_window, hf, ha']
  · intro w hf ha
    have ha' : (check_website pr).1 = true := ha
    refine ⟨findOpenWindow_some_open hf, ?_⟩
    obtain ⟨i, hi, heq⟩ := closeFirstOpen_spec now st.windows w hf
    exact ⟨i, hi, by simp [perform_check, manage_downtime_window, hf, ha', heq]⟩

open Monitoring in
/-- Witness for C1 at concrete inputs: a fresh target receiving a timed-out
probe at time 5 opens the window `[5, null)`; a target whose single window is
open receives a `200` response at time 9 and the window is closed at 9. -/
theorem C1_downtime_window_transitions_witness :
    (perform_check { checks := [], windows := [] } (.timeoutExc "t" 1) 5).1.windows =
      [{ start_time := 5, end_time := none }] ∧
    (perform_check { checks := [], windows := [{ start_time := 5, end_time := none }] }
        (.response 200 1) 9).1.windows =
      [{ start_time := 5, end_time := some 9 }] := by
  constructor
  · exact (C1_downtime_window_transitions
      { checks := [], windows := [] } (.timeoutExc "t" 1) 5).2.1 rfl rfl
  · obtain ⟨-, ⟨i, hi, heq⟩⟩ := (C1_downtime_window_transitions
      { checks := [], windows := [{ start_time := 5, end_time := none }] }
      (.response 200 1) 9).2.2.2.2 { start_time := 5, end_time := none } rfl rfl
    rw [heq]
    match i, hi with
    | 0, _ => rfl

open Monitoring in
/-- C3.  For every target and every sequence of checks processed through
`perform_check` (starting from a fresh target), after each check insert there
is at most one open downtime window: the state reached after any such
sequence — hence after each step of a longer sequence — has
`openWindowCount ≤ 1`. -/
theorem C3_at_most_one_open_window (steps : List (ProbeResult × ℚ)) :
    openWindowCount (runChecks steps).windows ≤ 1 := by
  unfold runChecks
  refine foldl_perform_check_inv (fun st => openWindowCount st.windows ≤ 1) ?_ steps _ ?_
  · intro st pr now h
    exact openWindowCount_manage_le_one st.windows (check_website pr).1 now h
  · simp [openWindowCount]

open Monitoring in
/-- C6.  Every probe error (transport timeout, connection failure, or any
other exception inside the probe) is recovered locally: `check_website` is a
total function that converts each error into the tuple of an unavailable
check (no status, an error message), and `perform_check` still inserts that
check and folds it through the downtime tracker. -/
theorem C6_probe_errors_recovered (pr : ProbeResult) (st : TargetState) (now : ℚ)
    (h : pr.isError = true) :
    (check_website pr).1 = false ∧
    (check_website pr).2.1 = none ∧
    (∃ s, (check_website pr).2.2.2 = some s) ∧
    (perform_check st pr now).2.is_available = false ∧
    (perform_check st pr now).1.checks = st.checks ++ [(perform_check st pr now).2] ∧
    (perform_check st pr now).1.windows = manage_downtime_window st.windows false now := by
  cases pr with
  | response status elapsed => simp [ProbeResult.isError] at h
  | timeoutExc d e => exact ⟨rfl, rfl, ⟨_, rfl⟩, rfl, rfl, rfl⟩
  | connectExc d e => exact ⟨rfl, rfl, ⟨_, rfl⟩, rfl, rfl, rfl⟩
  | otherExc d e => exact ⟨rfl, rfl, ⟨_, rfl⟩, rfl, rfl, rfl⟩

open Monitoring in
/-- Witness for C6 at a concrete input: a connection error at time 3 against
a fresh target yields an unavailable check and an opened downtime window. -/
theorem C6_probe_errors_recovered_witness :
    (check_website (.connectExc "refused" 2)).1 = false ∧
    (check_website (.connectExc "refused" 2)).2.1 = none ∧
    (∃ s, (check_website (.connectExc "refused" 2)).2.2.2 = some s) ∧
    (perform_check { checks := [], windows := [] }
      (.connectExc "refused" 2) 3).2.is_available = false ∧
    (perform_check { checks := [], windows := [] } (.connectExc "refused" 2) 3).1.checks =
      [] ++ [(perform_check { checks := [], windows := [] } (.connectExc "refused" 2) 3).2] ∧
    (perform_check { checks := [], windows := [] } (.connectExc "refused" 2) 3).1.windows =
      manage_downtime_window [] false 3 :=
  C6_probe_errors_recovered (.connectExc "refused" 2) { checks := [], windows := [] } 3 rfl

/-! ## Claim theorems: circuit breaker -/

open Sched in
/-- C4.  For every target id: `record_failure` increments the failure count
and, once the count reaches the threshold, sets
`blocked_until = now + timeout` (below the threshold it leaves the block
untouched); `is_blocked` is true exactly while `now < blocked_until`, and on
an expired block clears the breaker state (count to zero, block deleted) and
returns false; `record_success` clears both the count and the block.
Defaults (`CircuitBreaker.init`): threshold 5, cooldown 300 s. -/
theorem C4_circuit_breaker (cb : CircuitBreaker) (website_id : ℤ) (now : ℚ) :
    (record_failure cb website_id now).failures website_id =
      cb.failures website_id + 1 ∧
    (cb.failure_threshold ≤ cb.failures website_id + 1 →
      (record_failure cb website_id now).blocked_until website_id =
        some (now + cb.timeout)) ∧
    (cb.failures website_id + 1 < cb.failure_threshold →
      (record_failure cb website_id now).blocked_until website_id =
        cb.blocked_until website_id) ∧
    ((is_blocked cb website_id now).1 = true ↔
      ∃ t, cb.blocked_until website_id = some t ∧ now < t) ∧
    (∀ t, cb.blocked_until website_id = some t → t ≤ now →
      (is_blocked cb website_id now).1 = false ∧
      (is_blocked cb website_id now).2.blocked_until website_id = none ∧
      (is_blocked cb website_id now).2.failures website_id = 0) ∧
    (record_success cb website_id).failures website_id = 0 ∧
    (record_success cb website_id).blocked_until website_id = none := by
  refine ⟨?_, ?_, ?_, ?_, ?_, ?_, ?_⟩
  · simp only [record_failure]
    split <;> simp
  · intro h
    unfold record_failure
    simp only [Function.update_same]
    rw [if_pos h]
    simp
  · intro h
    unfold record_failure
    simp only [Function.update_same]
    rw [if_neg (by omega)]
  · unfold is_blocked
    rcases hb : cb.blocked_until website_id with _ | t
    · simp
    · dsimp only
      by_cases ht : t ≤ now
      · rw [if_pos ht]
        simp only [hb]
        constructor
        · intro h
          exact absurd h (by simp)
        · rintro ⟨t', ht', hlt⟩
          rw [Option.some_inj] at ht'
          subst ht'
          exact absurd hlt (not_lt.mpr ht)
      · rw [if_neg ht]
        simp only [hb]
        constructor
        · intro _
          exact ⟨t, rfl, not_le.mp ht⟩
        · intro _
          trivial
  · intro t ht hle
    unfold is_blocked
    rw [ht]
    simp [hle]
  · unfold record_success
    simp
  · unfold record_success
    simp

open Sched in
/-- Witness for C4 at concrete inputs: a breaker at four failures blocks on
the fifth at time 12 until 312; a breaker blocked until 10 is no longer
blocked at time 12 and its state is cleared; one blocked until 20 is still
blocked at 12. -/
theorem C4_circuit_breaker_witness :
    (record_failure
      { failure_threshold := 5, timeout := 300,
        failures := fun _ => 4, blocked_until := fun _ => none } 7 12).blocked_until 7 =
      some (12 + 300) ∧
    (is_blocked
      { failure_threshold := 5, timeout := 300,
        failures := fun _ => 4, blocked_until := fun _ => some 10 } 7 12).1 = false ∧
    (is_blocked
      { failure_threshold := 5, timeout := 300,
        failures := fun _ => 4, blocked_until := fun _ => some 10 } 7 12).2.failures 7 = 0 ∧
    (is_blocked
      { failure_threshold := 5, timeout := 300,
        failures := fun _ => 0, blocked_until := fun _ => some 20 } 7 12).1 = true := by
  refine ⟨?_, ?_, ?_, ?_⟩
  · exact (C4_circuit_breaker
      { failure_threshold := 5, timeout := 300,
        failures := fun _ => 4, blocked_until := fun _ => none } 7 12).2.1 (by norm_num)
  · exact ((C4_circuit_breaker
      { failure_threshold := 5, timeout := 300,
        failures := fun _ => 4, blocked_until := fun _ => some 10 } 7 12).2.2.2.2.1 10 rfl
        (by norm_num)).1
  · exact ((C4_circuit_breaker
      { failure_threshold := 5, timeout := 300,
        failures := fun _ => 4, blocked_until := fun _ => some 10 } 7 12).2.2.2.2.1 10 rfl
        (by norm_num)).2.2
  · exact (C4_circuit_breaker
      { failure_threshold := 5, timeout := 300,
        failures := fun _ => 0, blocked_until := fun _ => some 20 } 7 12).2.2.2.1.mpr
      ⟨20, rfl, by norm_num⟩

/-! ## Claim theorems: debug sessions -/

open DebugSvc in
/-- C7.  Creating a debug session for a target fails with a conflict error
when an `active` session already exists for that target, and the raising path
returns no new state, so no session row is created.  (Stated on the
target-id-attached creation path `DebugService.start_debug_session`; the spec
unifies the two source drafts on target id.) -/
theorem C7_active_session_conflict (db : DebugDb) (website_id new_id : ℤ)
    (hw : ∃ w ∈ db.websites, w.id = website_id)
    (hs : ∃ s ∈ db.debug_sessions,
      s.website_id = website_id ∧ s.status = SessionStatus.active) :
    start_debug_session db website_id new_id = .error .conflict ∧
    ∀ db' s, start_debug_session db website_id new_id ≠ .ok (db', s) := by
  have hw' : (db.websites.find? (fun w => decide (w.id = website_id))).isSome := by
    rw [List.find?_isSome]
    obtain ⟨w, hmem, hid⟩ := hw
    exact ⟨w, hmem, by simp [hid]⟩
  have hs' : (db.debug_sessions.find? (fun s =>
      decide (s.website_id = website_id) &&
        decide (s.status = SessionStatus.active))).isSome := by
    rw [List.find?_isSome]
    obtain ⟨s, hmem, hid, hst⟩ := hs
    exact ⟨s, hmem, by simp [hid, hst]⟩
  obtain ⟨w, hw⟩ := Option.isSome_iff_exists.mp hw'
  obtain ⟨s, hs⟩ := Option.isSome_iff_exists.mp hs'
  have : start_debug_session db website_id new_id = .error .conflict := by
    unfold start_debug_session
    rw [hw, hs]
  exact ⟨this, fun db' s hok => by rw [this] at hok; exact Except.noConfusion hok⟩

open DebugSvc in
/-- Witness for C7 at a concrete input: website 1 exists and has the active
session 0, so creating another session for it is a conflict. -/
theorem C7_active_session_conflict_witness :
    start_debug_session
      { websites := [{ id := 1 }],
        debug_sessions := [{ id := 0, website_id := 1, status := .active }] } 1 2 =
      .error .conflict :=
  (C7_active_session_conflict
    { websites := [{ id := 1 }],
      debug_sessions := [{ id := 0, website_id := 1, status := .active }] } 1 2
    ⟨{ id := 1 }, by simp, rfl⟩
    ⟨{ id := 0, website_id := 1, status := .active }, by simp, rfl, rfl⟩).1

open DebugSess in
/-- C10.  A `create_session` call with duration limit `0` treats the limit as
absent (Python falsiness of `0`): the cap against the configured maximum is
not applied (the stored limit stays `0`, whatever the maximum), and
`start_monitoring` launches no deadline task for it, so no duration-limit
auto-stop can occur. -/
theorem C10_zero_duration_limit (target_url : String) (max_duration : ℤ) :
    (create_session target_url (some 0) max_duration).duration_limit = some 0 ∧
    start_monitoring (create_session target_url (some 0) max_duration).duration_limit
      = false := by
  constructor
  · simp [create_session, intTruthy]
  · simp [create_session, start_monitoring, intTruthy]

/-! ## Claim theorems: SLA point metrics -/

namespace Sla

theorem windowContribution_eq_clamped (start_time end_time : ℚ) (w : DowntimeWindow) :
    windowContribution start_time end_time w = clampedOverlap start_time end_time w := by
  unfold windowContribution clampedOverlap
  rcases lt_or_ge (max w.started_at start_time) (min (w.ended_at.getD end_time) end_time)
    with h | h
  · rw [if_pos h, max_eq_right (sub_nonneg.mpr (le_of_lt h))]
  · rw [if_neg (not_lt.mpr h), max_eq_left (sub_nonpos.mpr h)]

theorem clamped_eq_zero_of_not_overlaps (start_time end_time : ℚ) (w : DowntimeWindow)
    (h : overlapsQuery start_time end_time w = false) :
    clampedOverlap start_time end_time w = 0 := by
  unfold overlapsQuery at h
  unfold clampedOverlap
  rcases he : w.ended_at with _ | e
  · rw [he] at h
    have hgt : end_time < w.started_at := by
      by_contra hc
      simp [not_lt.mp hc] at h
    apply max_eq_left
    have h2 : w.started_at ≤ max w.started_at start_time := le_max_left _ _
    have h3 : (Option.getD (none : Option ℚ) end_time) ⊓ end_time ≤ end_time :=
      min_le_right _ _
    linarith
  · rw [he] at h
    simp only [Option.isNone_some, Bool.and_false, Bool.or_false, Bool.and_eq_false_iff,
      decide_eq_false_iff_not, not_le] at h
    apply max_eq_left
    rcases h with h | h
    · have h2 : w.started_at ≤ max w.started_at start_time := le_max_left _ _
      have h3 : min ((some e).getD end_time) end_time ≤ end_time := min_le_right _ _
      linarith
    · have h2 : start_time ≤ max w.started_at start_time := le_max_right _ _
      have h3 : min ((some e).getD end_time) end_time ≤ e := by
        simpa using min_le_left e end_time
      linarith

theorem totalDowntime_eq_sum_clamped (windows : List DowntimeWindow)
    (start_time end_time : ℚ) :
    totalDowntime windows start_time end_time =
      (windows.map (clampedOverlap start_time end_time)).sum := by
  induction windows with
  | nil => rfl
  | cons w ws ih =>
      unfold totalDowntime at ih ⊢
      rw [List.filter_cons, List.map_cons, List.sum_cons]
      rcases hov : overlapsQuery start_time end_time w with _ | _
      · rw [if_neg (by simp), clamped_eq_zero_of_not_overlaps _ _ _ hov, ih, zero_add]
      · rw [if_pos rfl, List.map_cons, List.sum_cons, windowContribution_eq_clamped, ih]

end Sla

open Sla in
/-- C2.  For every SLA metrics query over `[start, end]`:
`total_downtime_seconds` is the sum over all downtime windows of
`max(0, min(window.ended_at or end, end) − max(window.started_at, start))`
(windows not overlapping the range contribute `0`, so this equals the sum
over overlapping windows; an open window extends to `end`);
for `start < end`, `availability_percent = ((total − downtime) / total) × 100`
with `total = end − start`; and a zero-duration range returns `100`. -/
theorem C2_sla_point_metrics (checks : List Sla.MonitorCheck)
    (windows : List Sla.DowntimeWindow) (start_time end_time : ℚ) (percentiles : List ℕ) :
    (calculate_metrics checks windows start_time end_time percentiles).total_downtime_seconds
      = (windows.map (clampedOverlap start_time end_time)).sum ∧
    (start_time < end_time →
      (calculate_metrics checks windows start_time end_time percentiles).availability_percent
        = ((end_time - start_time) -
            (windows.map (clampedOverlap start_time end_time)).sum) /
          (end_time - start_time) * 100) ∧
    (end_time = start_time →
      (calculate_metrics checks windows start_time end_time percentiles).availability_percent
        = 100) := by
  refine ⟨?_, ?_, ?_⟩
  · simp only [calculate_metrics]
    exact totalDowntime_eq_sum_clamped windows start_time end_time
  · intro hlt
    simp only [calculate_metrics]
    rw [if_pos (by linarith), totalDowntime_eq_sum_clamped]
  · intro heq
    simp only [calculate_metrics]
    rw [if_neg (by rw [heq]; simp)]

open Sla in
/-- Witness for C2 at concrete inputs: over `[0, 10]` with the single closed
window `[2, 4]` the downtime is `2` and availability `80`; a zero-duration
query returns `100`. -/
theorem C2_sla_point_metrics_witness :
    (calculate_metrics [] [{ started_at := 2, ended_at := some 4 }] 0 10 []).total_downtime_seconds
      = (([{ started_at := 2, ended_at := some 4 }] :
          List Sla.DowntimeWindow).map (clampedOverlap 0 10)).sum ∧
    (calculate_metrics [] [{ started_at := 2, ended_at := some 4 }] 0 10 []).availability_percent
      = ((10 - 0) - (([{ started_at := 2, ended_at := some 4 }] :
          List Sla.DowntimeWindow).map (clampedOverlap 0 10)).sum) / (10 - 0) * 100 ∧
    (calculate_metrics [] [] 5 5 []).availability_percent = 100 :=
  ⟨(C2_sla_point_metrics [] [{ started_at := 2, ended_at := some 4 }] 0 10 []).1,
   (C2_sla_point_metrics [] [{ started_at := 2, ended_at := some 4 }] 0 10 []).2.1
     (by norm_num),
   (C2_sla_point_metrics [] [] 5 5 []).2.2 rfl⟩

/-! ## Claim theorems: response-time percentiles -/

namespace Sla

theorem mergeSort_rat_sorted (xs : List ℚ) :
    List.Sorted (· ≤ ·) (xs.mergeSort (fun a b => a ≤ b)) := by
  have h := @List.sorted_mergeSort ℚ
    (fun a b : ℚ => decide (a ≤ b))
    (fun a b c hab hbc => by
      simp only [decide_eq_true_eq] at *
      exact le_trans hab hbc)
    (fun a b => by
      simp only [Bool.or_eq_true, decide_eq_true_eq]
      exact le_total a b)
    xs
  exact h.imp (fun hab => by simpa using hab)

theorem sorted_getD_le {s : List ℚ} (hs : List.Sorted (· ≤ ·) s) {i j : ℕ}
    (hij : i ≤ j) (hj : j < s.length) (d₁ d₂ : ℚ) :
    s.getD i d₁ ≤ s.getD j d₂ := by
  have hi : i < s.length := lt_of_le_of_lt hij hj
  rw [List.getD_eq_getElem _ _ hi, List.getD_eq_getElem _ _ hj]
  have := hs.rel_get_of_le (a := ⟨i, hi⟩) (b := ⟨j, hj⟩) (by exact hij)
  simpa [List.get_eq_getElem] using this

theorem interp_le_right {s : List ℚ} (hs : List.Sorted (· ≤ ·) s) {i : ℕ} {a : ℚ}
    (hfr0 : 0 ≤ a - (i : ℚ)) (hfr1 : a - (i : ℚ) ≤ 1) (hi1 : i + 1 < s.length) :
    s.getD i 0 + (a - (i : ℚ)) * (s.getD (i + 1) (s.getD i 0) - s.getD i 0) ≤
      s.getD (i + 1) 0 := by
  have hAB : s.getD i 0 ≤ s.getD (i + 1) (s.getD i 0) :=
    sorted_getD_le hs (Nat.le_succ i) hi1 0 _
  have heq : s.getD (i + 1) (s.getD i 0) = s.getD (i + 1) 0 := by
    rw [List.getD_eq_getElem _ _ hi1, List.getD_eq_getElem _ _ hi1]
  have := mul_le_mul_of_nonneg_right hfr1 (sub_nonneg.mpr hAB)
  rw [one_mul] at this
  linarith [this, heq.ge, heq.le]

theorem left_le_interp {s : List ℚ} (hs : List.Sorted (· ≤ ·) s) {j : ℕ} {b : ℚ}
    (hfr0 : 0 ≤ b - (j : ℚ)) (hj : j < s.length) :
    s.getD j 0 ≤
      s.getD j 0 + (b - (j : ℚ)) * (s.getD (j + 1) (s.getD j 0) - s.getD j 0) := by
  rcases lt_or_ge (j + 1) s.length with hj1 | hj1
  · have hAB : s.getD j 0 ≤ s.getD (j + 1) (s.getD j 0) :=
      sorted_getD_le hs (Nat.le_succ j) hj1 0 _
    nlinarith [mul_nonneg hfr0 (sub_nonneg.mpr hAB)]
  · rw [List.getD_eq_default _ _ hj1]
    simp

theorem interp_mono {s : List ℚ} (hs : List.Sorted (· ≤ ·) s) (hlen : 1 ≤ s.length)
    {a b : ℚ} (ha : 0 ≤ a) (hab : a ≤ b) (hbN : b ≤ (s.length : ℚ) - 1) :
    s.getD (⌊a⌋).toNat 0 +
        (a - ((⌊a⌋).toNat : ℚ)) *
          (s.getD ((⌊a⌋).toNat + 1) (s.getD (⌊a⌋).toNat 0) - s.getD (⌊a⌋).toNat 0) ≤
      s.getD (⌊b⌋).toNat 0 +
        (b - ((⌊b⌋).toNat : ℚ)) *
          (s.getD ((⌊b⌋).toNat + 1) (s.getD (⌊b⌋).toNat 0) - s.getD (⌊b⌋).toNat 0) := by
  have hb0 : 0 ≤ b := le_trans ha hab
  have hza : 0 ≤ ⌊a⌋ := Int.floor_nonneg.mpr ha
  have hzb : 0 ≤ ⌊b⌋ := Int.floor_nonneg.mpr hb0
  have hzab : ⌊a⌋ ≤ ⌊b⌋ := Int.floor_le_floor hab
  have hcasta : (((⌊a⌋).toNat : ℕ) : ℚ) = ((⌊a⌋ : ℤ) : ℚ) := by
    rw [← Int.toNat_of_nonneg hza]
    push_cast
    rfl
  have hcastb : (((⌊b⌋).toNat : ℕ) : ℚ) = ((⌊b⌋ : ℤ) : ℚ) := by
    rw [← Int.toNat_of_nonneg hzb]
    push_cast
    rfl
  have hfra0 : 0 ≤ a - ((⌊a⌋).toNat : ℚ) := by
    rw [hcasta]
    linarith [Int.floor_le a]
  have hfra1 : a - ((⌊a⌋).toNat : ℚ) < 1 := by
    rw [hcasta]
    linarith [Int.lt_floor_add_one a]
  have hfrb0 : 0 ≤ b - ((⌊b⌋).toNat : ℚ) := by
    rw [hcastb]
    linarith [Int.floor_le b]
  have hjlt : (⌊b⌋).toNat < s.length := by
    have h1 : ⌊b⌋ ≤ ⌊(s.length : ℚ) - 1⌋ := Int.floor_le_floor hbN
    have h2 : ⌊((s.length : ℚ)) - 1⌋ = (s.length : ℤ) - 1 := by
      rw [show ((s.length : ℚ) - 1) = (((s.length : ℤ) - 1 : ℤ) : ℚ) by push_cast; ring]
      exact Int.floor_intCast _
    omega
  rcases Nat.lt_or_ge (⌊a⌋).toNat (⌊b⌋).toNat with hij | hij
  · -- strictly smaller floor: chain through the order statistics
    have hi1 : (⌊a⌋).toNat + 1 < s.length := by omega
    have step1 := interp_le_right hs hfra0 (le_of_lt hfra1) hi1
    have step2 : s.getD ((⌊a⌋).toNat + 1) 0 ≤ s.getD (⌊b⌋).toNat 0 :=
      sorted_getD_le hs (by omega) hjlt 0 0
    have step3 := left_le_interp hs hfrb0 hjlt
    linarith
  · have hij' : (⌊a⌋).toNat = (⌊b⌋).toNat := by omega
    rw [hij']
    rcases lt_or_ge ((⌊b⌋).toNat + 1) s.length with hj1 | hj1
    · have hAB : s.getD (⌊b⌋).toNat 0 ≤ s.getD ((⌊b⌋).toNat + 1) (s.getD (⌊b⌋).toNat 0) :=
        sorted_getD_le hs (Nat.le_succ _) hj1 0 _
      have hab' : a - ((⌊b⌋).toNat : ℚ) ≤ b - ((⌊b⌋).toNat : ℚ) := by linarith
      nlinarith [mul_le_mul_of_nonneg_right hab' (sub_nonneg.mpr hAB)]
    · rw [List.getD_eq_default _ _ hj1]
      simp

theorem np_percentile_mono (xs : List ℚ) (hne : xs ≠ []) {p q : ℚ}
    (hp : 0 ≤ p) (hpq : p ≤ q) (hq : q ≤ 100) :
    np_percentile xs p ≤ np_percentile xs q := by
  unfold np_percentile
  have hsor := mergeSort_rat_sorted xs
  have hlen : 1 ≤ (xs.mergeSort (fun a b => a ≤ b)).length := by
    rw [List.length_mergeSort]
    exact List.length_pos.mpr hne
  set s := xs.mergeSort (fun a b => a ≤ b) with hs_def
  have hN0 : 0 ≤ (s.length : ℚ) - 1 := by
    have : (1 : ℚ) ≤ (s.length : ℚ) := by exact_mod_cast hlen
    linarith
  have ha : 0 ≤ ((s.length : ℚ) - 1) * p / 100 :=
    div_nonneg (mul_nonneg hN0 hp) (by norm_num)
  have hab : ((s.length : ℚ) - 1) * p / 100 ≤ ((s.length : ℚ) - 1) * q / 100 := by
    apply div_le_div_of_nonneg_right ?_ (by norm_num)
    exact mul_le_mul_of_nonneg_left hpq hN0
  have hbN : ((s.length : ℚ) - 1) * q / 100 ≤ (s.length : ℚ) - 1 := by
    rw [div_le_iff (by norm_num : (0:ℚ) < 100)]
    exact mul_le_mul_of_nonneg_left hq hN0
  exact interp_mono hsor hlen ha hab hbN

end Sla

open Sla in
/-- C9.  For the default requested percentiles 50, 75, 90, 95, 99 of
`calculate_metrics`: when the sample of response times of successful checks in
range is non-empty, every requested percentile is computed (by linear
interpolation between order statistics, `np_percentile`) and they are
monotone, `p50 ≤ p75 ≤ p90 ≤ p95 ≤ p99`; when the sample is empty, every
requested percentile is null. -/
theorem C9_percentile_monotonicity (checks : List Sla.MonitorCheck)
    (windows : List Sla.DowntimeWindow) (start_time end_time : ℚ) :
    (responseTimes checks start_time end_time ≠ [] →
      ∃ v50 v75 v90 v95 v99,
        (calculate_metrics checks windows start_time end_time
            [50, 75, 90, 95, 99]).percentile_response_times =
          [(50, some v50), (75, some v75), (90, some v90), (95, some v95),
            (99, some v99)] ∧
        v50 ≤ v75 ∧ v75 ≤ v90 ∧ v90 ≤ v95 ∧ v95 ≤ v99) ∧
    (responseTimes checks start_time end_time = [] →
      (calculate_metrics checks windows start_time end_time
          [50, 75, 90, 95, 99]).percentile_response_times =
        [(50, none), (75, none), (90, none), (95, none), (99, none)]) := by
  constructor
  · intro hne
    have hemp : (responseTimes checks start_time end_time).isEmpty = false := by
      rcases h : (responseTimes checks start_time end_time).isEmpty with _ | _
      · rfl
      · exact absurd (List.isEmpty_iff.mp h) hne
    refine ⟨np_percentile (responseTimes checks start_time end_time) ((50 : ℕ) : ℚ),
      np_percentile (responseTimes checks start_time end_time) ((75 : ℕ) : ℚ),
      np_percentile (responseTimes checks start_time end_time) ((90 : ℕ) : ℚ),
      np_percentile (responseTimes checks start_time end_time) ((95 : ℕ) : ℚ),
      np_percentile (responseTimes checks start_time end_time) ((99 : ℕ) : ℚ),
      ?_, ?_, ?_, ?_, ?_⟩
    · simp [calculate_metrics, hemp]
    · exact np_percentile_mono _ hne (by norm_num) (by norm_num) (by norm_num)
    · exact np_percentile_mono _ hne (by norm_num) (by norm_num) (by norm_num)
    · exact np_percentile_mono _ hne (by norm_num) (by norm_num) (by norm_num)
    · exact np_percentile_mono _ hne (by norm_num) (by norm_num) (by norm_num)
  · intro he
    have hemp : (responseTimes checks start_time end_time).isEmpty = true :=
      List.isEmpty_iff.mpr he
    simp [calculate_metrics, hemp]

open Sla in
/-- Witness for C9 at concrete inputs: two successful checks with response
times 100 and 200 give five computed, monotone percentiles; an empty store
gives five nulls. -/
theorem C9_percentile_monotonicity_witness :
    (∃ v50 v75 v90 v95 v99,
      (calculate_metrics
          [{ checked_at := 1, is_up := true, response_time_ms := some 100 },
           { checked_at := 2, is_up := true, response_time_ms := some 200 }]
          [] 0 10 [50, 75, 90, 95, 99]).percentile_response_times =
        [(50, some v50), (75, some v75), (90, some v90), (95, some v95),
          (99, some v99)] ∧
      v50 ≤ v75 ∧ v75 ≤ v90 ∧ v90 ≤ v95 ∧ v95 ≤ v99) ∧
    (calculate_metrics [] [] 0 10 [50, 75, 90, 95, 99]).percentile_response_times =
      [(50, none), (75, none), (90, none), (95, none), (99, none)] :=
  ⟨(C9_percentile_monotonicity
      [{ checked_at := 1, is_up := true, response_time_ms := some 100 },
       { checked_at := 2, is_up := true, response_time_ms := some 200 }]
      [] 0 10).1 (by decide),
   (C9_percentile_monotonicity [] [] 0 10).2 rfl⟩

/-! ## Claim theorems: scheduler firing and circuit breaker interaction -/

open Sched in
/-- Counterexample to C8 as stated: five consecutive probe errors (timeouts,
60 s apart, well within the 300 s cooldown) are each converted into a Check by
`check_website` inside `perform_check`, which completes normally — so
`_check_website_wrapper` records breaker *success* after each of them and the
breaker never blocks.  The sixth scheduled firing therefore still records a
Check: six checks total, and no block was ever set. -/
theorem C8_counterexample_probe_errors_do_not_trip_breaker :
    (runFirings 1
      [(.probe (.timeoutExc "t" 1), 0), (.probe (.timeoutExc "t" 1), 60),
       (.probe (.timeoutExc "t" 1), 120), (.probe (.timeoutExc "t" 1), 180),
       (.probe (.timeoutExc "t" 1), 240),
       (.probe (.timeoutExc "t" 1), 300)]).db.checks.length = 6 ∧
    (runFirings 1
      [(.probe (.timeoutExc "t" 1), 0), (.probe (.timeoutExc "t" 1), 60),
       (.probe (.timeoutExc "t" 1), 120), (.probe (.timeoutExc "t" 1), 180),
       (.probe (.timeoutExc "t" 1), 240),
       (.probe (.timeoutExc "t" 1), 300)]).breaker.blocked_until 1 = none := by
  constructor
  · rfl
  · rfl

open Sched in
/-- C8 (amended).  Whenever the circuit breaker reports a target blocked at
the moment a scheduled firing runs, the firing skips silently: the store (its
checks and windows) is untouched.  The breaker, however, counts only
exceptions escaping `perform_check` (for example persistence failures) — the
wrapper records success whenever `perform_check` completes, even for an
unavailable probe — so it is after `threshold` consecutive *escaping*
failures within the cooldown that the next scheduled firing records no Check:
after five `commitFailure` firings from a fresh breaker, a sixth firing
before `t₅ + 300` leaves the store empty. -/
theorem C8_blocked_firing_skips (st : SchedState) (website_id : ℤ)
    (ev : FiringEvent) (now : ℚ)
    (hb : (is_blocked st.breaker website_id now).1 = true) :
    (check_website_wrapper st website_id ev now).db = st.db ∧
    ∀ (t₁ t₂ t₃ t₄ t₅ t₆ : ℚ), t₆ < t₅ + 300 →
      (runFirings website_id
        [(.commitFailure, t₁), (.commitFailure, t₂), (.commitFailure, t₃),
         (.commitFailure, t₄), (.commitFailure, t₅), (ev, t₆)]).db.checks = [] ∧
      (runFirings website_id
        [(.commitFailure, t₁), (.commitFailure, t₂), (.commitFailure, t₃),
         (.commitFailure, t₄), (.commitFailure, t₅), (ev, t₆)]).db.windows = [] := by
  constructor
  · unfold check_website_wrapper
    rw [if_pos hb]
  · intro t₁ t₂ t₃ t₄ t₅ t₆ ht
    have hblocked :
        (runFirings website_id
          [(.commitFailure, t₁), (.commitFailure, t₂), (.commitFailure, t₃),
           (.commitFailure, t₄), (.commitFailure, t₅)]).breaker.blocked_until website_id =
          some (t₅ + 300) := by
      simp [runFirings, check_website_wrapper, is_blocked, record_failure,
        CircuitBreaker.init, Function.update_same]
    have hdb :
        (runFirings website_id
          [(.commitFailure, t₁), (.commitFailure, t₂), (.commitFailure, t₃),
           (.commitFailure, t₄), (.commitFailure, t₅)]).db =
          { checks := [], windows := [] } := by
      simp [runFirings, check_website_wrapper, is_blocked, record_failure,
        CircuitBreaker.init, Function.update_same]
    have hrun :
        runFirings website_id
          [(.commitFailure, t₁), (.commitFailure, t₂), (.commitFailure, t₃),
           (.commitFailure, t₄), (.commitFailure, t₅), (ev, t₆)] =
        check_website_wrapper
          (runFirings website_id
            [(.commitFailure, t₁), (.commitFailure, t₂), (.commitFailure, t₃),
             (.commitFailure, t₄), (.commitFailure, t₅)]) website_id ev t₆ := by
      simp [runFirings, List.foldl]
    rw [hrun]
    unfold check_website_wrapper
    unfold is_blocked
    rw [hblocked]
    dsimp only
    rw [if_neg (not_le.mpr (by linarith))]
    simp [hdb]

open Sched in
/-- Witness for the amended C8 at concrete inputs: a breaker blocked until
100 skips a firing at time 50 without touching the store, and five
persistence failures at 0..240 block the sixth firing at 300. -/
theorem C8_blocked_firing_skips_witness :
    (check_website_wrapper
      { breaker :=
          { failure_threshold := 5, timeout := 300,
            failures := fun _ => 0, blocked_until := fun _ => some 100 },
        db := { checks := [], windows := [] } } 1 (.probe (.response 200 1)) 50).db =
      ({ checks := [], windows := [] } : Monitoring.TargetState) ∧
    (runFirings 1
      [(.commitFailure, 0), (.commitFailure, 60), (.commitFailure, 120),
       (.commitFailure, 180), (.commitFailure, 240),
       (.probe (.response 200 1), 300)]).db.checks = [] := by
  have h := C8_blocked_firing_skips
    { breaker :=
        { failure_threshold := 5, timeout := 300,
          failures := fun _ => 0, blocked_until := fun _ => some 100 },
      db := { checks := [], windows := [] } } 1 (.probe (.response 200 1)) 50 rfl
  exact ⟨h.1, (h.2 0 60 120 180 240 300 (by norm_num)).1⟩

/-! ## Calendar lemmas for the bucket generator -/

namespace Sla

theorem days_in_month_bounds (y m : ℤ) :
    28 ≤ days_in_month y m ∧ days_in_month y m ≤ 31 := by
  unfold days_in_month
  split_ifs <;> norm_num

theorem ymd2ord_succ_day (y m d : ℤ) : ymd2ord y m (d + 1) = ymd2ord y m d + 1 := by
  unfold ymd2ord
  ring

theorem ymd2ord_day_le (y m : ℤ) {d d' : ℤ} (h : d ≤ d') :
    ymd2ord y m d ≤ ymd2ord y m d' := by
  unfold ymd2ord
  omega

theorem ymd2ord_month_rollover (y : ℤ) {m : ℤ} (hm : 1 ≤ m) (hm2 : m ≤ 11) :
    ymd2ord y (m + 1) 1 = ymd2ord y m (days_in_month y m) + 1 := by
  unfold ymd2ord days_in_month daysBeforeMonth isLeap
  interval_cases m <;> norm_num <;> omega

theorem ymd2ord_year_rollover (y : ℤ) :
    ymd2ord (y + 1) 1 1 = ymd2ord y 12 31 + 1 := by
  unfold ymd2ord daysBeforeMonth isLeap
  norm_num
  omega

theorem daysBeforeMonth_nonneg (m : ℤ) : 0 ≤ daysBeforeMonth m := by
  unfold daysBeforeMonth
  repeat' split
  all_goals norm_num

theorem ymd2ord_min {y m d : ℤ} (hy : 1 ≤ y) (hm : 1 ≤ m) (hm2 : m ≤ 12)
    (hd : 1 ≤ d) : 1 ≤ ymd2ord y m d := by
  have h1 := daysBeforeMonth_nonneg m
  unfold ymd2ord
  split_ifs <;> omega

theorem addOneDay_fields (t : PyDateTime) :
    (addOneDay t).hour = t.hour ∧ (addOneDay t).minute = t.minute ∧
    (addOneDay t).second = t.second ∧ (addOneDay t).microsecond = t.microsecond := by
  unfold addOneDay
  split_ifs <;> exact ⟨rfl, rfl, rfl, rfl⟩

theorem addOneDay_spec {t : PyDateTime} (hv : Valid t) :
    Valid (addOneDay t) ∧ toordinal (addOneDay t) = toordinal t + 1 := by
  have hb0 := days_in_month_bounds t.year t.month
  have hb1 := days_in_month_bounds t.year (t.month + 1)
  unfold Valid at hv
  obtain ⟨hy, hm1, hm2, hd1, hd2, hrest⟩ := hv
  unfold addOneDay
  by_cases h1 : t.day < days_in_month t.year t.month
  · rw [if_pos h1]
    constructor
    · unfold Valid
      dsimp only
      exact ⟨hy, hm1, hm2, by omega, by omega, hrest⟩
    · unfold toordinal
      dsimp only
      exact ymd2ord_succ_day t.year t.month t.day
  · rw [if_neg h1]
    have hd : t.day = days_in_month t.year t.month := le_antisymm hd2 (not_lt.mp h1)
    by_cases h2 : t.month < 12
    · rw [if_pos h2]
      constructor
      · unfold Valid
        dsimp only
        exact ⟨hy, by omega, by omega, by norm_num, by omega, hrest⟩
      · unfold toordinal
        dsimp only
        rw [hd]
        exact ymd2ord_month_rollover t.year hm1 (by omega)
    · rw [if_neg h2]
      have hm12 : t.month = 12 := by omega
      have hd31 : t.day = 31 := by
        rw [hd, hm12]
        unfold days_in_month
        norm_num
      constructor
      · unfold Valid
        dsimp only
        refine ⟨by omega, by norm_num, by norm_num, by norm_num, ?_, hrest⟩
        unfold days_in_month
        norm_num
      · unfold toordinal
        dsimp only
        rw [hm12, hd31]
        exact ymd2ord_year_rollover t.year

theorem ymd2ord_day_offset (y m d : ℤ) : ymd2ord y m d = ymd2ord y m 1 + (d - 1) := by
  unfold ymd2ord
  ring

theorem subOneDay_spec {t : PyDateTime} (hv : Valid t) (h2 : 2 ≤ toordinal t) :
    Valid (subOneDay t) ∧ toordinal (subOneDay t) = toordinal t - 1 := by
  have hb0 := days_in_month_bounds t.year t.month
  have hbm := days_in_month_bounds t.year (t.month - 1)
  unfold Valid at hv
  obtain ⟨hy, hm1, hm2, hd1, hd2, hrest⟩ := hv
  unfold subOneDay
  by_cases h1 : 1 < t.day
  · rw [if_pos h1]
    constructor
    · unfold Valid
      dsimp only
      exact ⟨hy, hm1, hm2, by omega, by omega, hrest⟩
    · unfold toordinal
      dsimp only
      have h := ymd2ord_succ_day t.year t.month (t.day - 1)
      rw [sub_add_cancel] at h
      omega
  · rw [if_neg h1]
    have hd : t.day = 1 := by omega
    by_cases h2m : 1 < t.month
    · rw [if_pos h2m]
      constructor
      · unfold Valid
        dsimp only
        exact ⟨hy, by omega, by omega, by omega, le_refl _, hrest⟩
      · unfold toordinal
        dsimp only
        have h := ymd2ord_month_rollover t.year (m := t.month - 1) (by omega) (by omega)
        rw [sub_add_cancel] at h
        rw [hd]
        omega
    · rw [if_neg h2m]
      have hm : t.month = 1 := by omega
      have hy2 : 2 ≤ t.year := by
        rcases eq_or_lt_of_le hy with h | h
        · exfalso
          have hord : toordinal t = 1 := by
            unfold toordinal
            rw [← h, hm, hd]
            decide
          omega
        · omega
      constructor
      · unfold Valid
        dsimp only
        refine ⟨by omega, by norm_num, by norm_num, by norm_num, ?_, hrest⟩
        unfold days_in_month
        norm_num
      · unfold toordinal
        dsimp only
        have h := ymd2ord_year_rollover (t.year - 1)
        rw [sub_add_cancel] at h
        rw [hm, hd]
        omega

theorem addDays_spec (n : ℕ) {t : PyDateTime} (hv : Valid t) :
    Valid (addDays n t) ∧ toordinal (addDays n t) = toordinal t + n := by
  induction n with
  | zero => exact ⟨hv, by simp [addDays]⟩
  | succ k ih =>
      have hstep := addOneDay_spec ih.1
      have : addDays (k + 1) t = addOneDay (addDays k t) := by
        unfold addDays
        rw [Function.iterate_succ_apply']
      rw [this]
      refine ⟨hstep.1, ?_⟩
      rw [hstep.2, ih.2]
      push_cast
      ring

theorem subDays_spec (k : ℕ) {t : PyDateTime} (hv : Valid t)
    (hord : (k : ℤ) + 1 ≤ toordinal t) :
    Valid (subDays k t) ∧ toordinal (subDays k t) = toordinal t - k := by
  induction k with
  | zero => exact ⟨hv, by simp [subDays]⟩
  | succ j ih =>
      have ih' := ih (by push_cast at hord ⊢; omega)
      have hstep := subOneDay_spec ih'.1 (by rw [ih'.2]; push_cast at hord ⊢; omega)
      have : subDays (j + 1) t = subOneDay (subDays j t) := by
        unfold subDays
        rw [Function.iterate_succ_apply']
      rw [this]
      refine ⟨hstep.1, ?_⟩
      rw [hstep.2, ih'.2]
      push_cast
      ring

theorem addOneDay_midnight (t : PyDateTime) :
    isMidnight (addOneDay t) = isMidnight t := by
  obtain ⟨h1, h2, h3, h4⟩ := addOneDay_fields t
  unfold isMidnight
  rw [h1, h2, h3, h4]

theorem addDays_midnight (n : ℕ) (t : PyDateTime) :
    isMidnight (addDays n t) = isMidnight t := by
  induction n with
  | zero => rfl
  | succ k ih =>
      have : addDays (k + 1) t = addOneDay (addDays k t) := by
        unfold addDays
        rw [Function.iterate_succ_apply']
      rw [this, addOneDay_midnight, ih]

theorem valid_ord_min {t : PyDateTime} (hv : Valid t) : 1 ≤ toordinal t := by
  obtain ⟨hy, hm1, hm2, hd1, _⟩ := hv
  exact ymd2ord_min hy hm1 hm2 hd1

theorem toSeconds_bounds {t : PyDateTime} (hv : Valid t) :
    86400 * (toordinal t : ℚ) ≤ toSeconds t ∧
      toSeconds t < 86400 * ((toordinal t : ℚ) + 1) := by
  obtain ⟨-, -, -, -, -, hh0, hh1, hm0, hm1, hs0, hs1, hu0, hu1⟩ := hv
  unfold toSeconds
  have ch0 : (0 : ℚ) ≤ (t.hour : ℚ) := by exact_mod_cast hh0
  have ch1 : (t.hour : ℚ) ≤ 23 := by exact_mod_cast (by omega : t.hour ≤ 23)
  have cm0 : (0 : ℚ) ≤ (t.minute : ℚ) := by exact_mod_cast hm0
  have cm1 : (t.minute : ℚ) ≤ 59 := by exact_mod_cast (by omega : t.minute ≤ 59)
  have cs0 : (0 : ℚ) ≤ (t.second : ℚ) := by exact_mod_cast hs0
  have cs1 : (t.second : ℚ) ≤ 59 := by exact_mod_cast (by omega : t.second ≤ 59)
  have cu0 : (0 : ℚ) ≤ (t.microsecond : ℚ) := by exact_mod_cast hu0
  have cu1 : (t.microsecond : ℚ) < 1000000 := by exact_mod_cast hu1
  constructor
  · have : (0 : ℚ) ≤ (t.microsecond : ℚ) / 1000000 := by positivity
    linarith
  · have : (t.microsecond : ℚ) / 1000000 < 1 := by
      rw [div_lt_one (by norm_num)]
      exact cu1
    linarith

theorem toSeconds_midnight {t : PyDateTime} (hm : isMidnight t = true) :
    toSeconds t = 86400 * (toordinal t : ℚ) := by
  unfold isMidnight at hm
  simp only [Bool.and_eq_true, decide_eq_true_eq] at hm
  obtain ⟨⟨⟨h1, h2⟩, h3⟩, h4⟩ := hm
  unfold toSeconds
  rw [h1, h2, h3, h4]
  push_cast
  ring

theorem sec_lt_of_ord_lt {a b : PyDateTime} (hva : Valid a) (hvb : Valid b)
    (h : toordinal a < toordinal b) : toSeconds a < toSeconds b := by
  have h1 := (toSeconds_bounds hva).2
  have h2 := (toSeconds_bounds hvb).1
  have : ((toordinal a : ℚ) + 1) ≤ (toordinal b : ℚ) := by
    exact_mod_cast h
  nlinarith

theorem ord_le_of_sec_le {a b : PyDateTime} (hva : Valid a) (hvb : Valid b)
    (h : toSeconds a ≤ toSeconds b) : toordinal a ≤ toordinal b := by
  by_contra hc
  exact absurd h (not_le.mpr (sec_lt_of_ord_lt hvb hva (by omega)))

theorem toSeconds_eq_micros (t : PyDateTime) :
    toSeconds t = (toMicros t : ℚ) / 1000000 := by
  unfold toSeconds toMicros
  push_cast
  ring

theorem micros_lt_iff (a b : PyDateTime) :
    toMicros a < toMicros b ↔ toSeconds a < toSeconds b := by
  rw [toSeconds_eq_micros a, toSeconds_eq_micros b]
  constructor
  · intro h
    have h' : (toMicros a : ℚ) < (toMicros b : ℚ) := by exact_mod_cast h
    linarith
  · intro h
    have h' : (toMicros a : ℚ) < (toMicros b : ℚ) := by linarith
    exact_mod_cast h'

theorem micros_le_iff (a b : PyDateTime) :
    toMicros a ≤ toMicros b ↔ toSeconds a ≤ toSeconds b := by
  rw [toSeconds_eq_micros a, toSeconds_eq_micros b]
  constructor
  · intro h
    have h' : (toMicros a : ℚ) ≤ (toMicros b : ℚ) := by exact_mod_cast h
    linarith
  · intro h
    have h' : (toMicros a : ℚ) ≤ (toMicros b : ℚ) := by linarith
    exact_mod_cast h'

theorem pylt_iff (a b : PyDateTime) : pylt a b = true ↔ toSeconds a < toSeconds b := by
  simp [pylt, micros_lt_iff]

theorem pylt_false_iff (a b : PyDateTime) :
    pylt a b = false ↔ toSeconds b ≤ toSeconds a := by
  simp only [Bool.eq_false_iff, ne_eq, pylt_iff, not_lt]

theorem pyle_iff (a b : PyDateTime) : pyle a b = true ↔ toSeconds a ≤ toSeconds b := by
  simp [pyle, micros_le_iff]

theorem pymin_eq_left {a b : PyDateTime} (h : toSeconds a ≤ toSeconds b) :
    pymin a b = a := by
  unfold pymin
  rw [(pylt_false_iff b a).mpr h]
  rfl

theorem pymin_eq_right {a b : PyDateTime} (h : toSeconds b < toSeconds a) :
    pymin a b = b := by
  unfold pymin
  rw [(pylt_iff b a).mpr h]
  rfl

theorem pymax_eq_left {a b : PyDateTime} (h : toSeconds b ≤ toSeconds a) :
    pymax a b = a := by
  unfold pymax
  rw [(pylt_false_iff a b).mpr h]
  rfl

theorem pymax_eq_right {a b : PyDateTime} (h : toSeconds a < toSeconds b) :
    pymax a b = b := by
  unfold pymax
  rw [(pylt_iff a b).mpr h]
  rfl

theorem toSeconds_pymin (a b : PyDateTime) :
    toSeconds (pymin a b) = min (toSeconds a) (toSeconds b) := by
  unfold pymin
  rcases h : pylt b a with _ | _
  · rw [min_eq_left ((pylt_false_iff b a).mp h)]
    simp
  · rw [min_eq_right (le_of_lt ((pylt_iff b a).mp h))]
    simp

theorem replaceMidnight_ord (t : PyDateTime) :
    toordinal (replaceMidnight t) = toordinal t := rfl

theorem replaceMidnight_isMidnight (t : PyDateTime) :
    isMidnight (replaceMidnight t) = true := by
  simp [isMidnight, replaceMidnight]

theorem replaceMidnight_valid {t : PyDateTime} (hv : Valid t) :
    Valid (replaceMidnight t) := by
  unfold Valid at hv ⊢
  unfold replaceMidnight
  dsimp only
  obtain ⟨hy, hm1, hm2, hd1, hd2, -⟩ := hv
  refine ⟨hy, hm1, hm2, hd1, hd2, by norm_num⟩

theorem replaceMidnight_eq_self {t : PyDateTime} (hm : isMidnight t = true) :
    replaceMidnight t = t := by
  unfold isMidnight at hm
  simp only [Bool.and_eq_true, decide_eq_true_eq] at hm
  obtain ⟨⟨⟨h1, h2⟩, h3⟩, h4⟩ := hm
  unfold replaceMidnight
  cases t
  simp_all

theorem sec_replaceMidnight_le {t : PyDateTime} (hv : Valid t) :
    toSeconds (replaceMidnight t) ≤ toSeconds t := by
  rw [toSeconds_midnight (replaceMidnight_isMidnight t), replaceMidnight_ord]
  exact (toSeconds_bounds hv).1

theorem sec_replaceMidnight_lt {t : PyDateTime} (hv : Valid t)
    (hm : isMidnight t = false) : toSeconds (replaceMidnight t) < toSeconds t := by
  rw [toSeconds_midnight (replaceMidnight_isMidnight t), replaceMidnight_ord]
  obtain ⟨-, -, -, -, -, hh0, -, hm0, -, hs0, -, hu0, -⟩ := hv
  unfold isMidnight at hm
  simp only [Bool.and_eq_false_iff, decide_eq_false_iff_not] at hm
  have ch0 : (0 : ℚ) ≤ (t.hour : ℚ) := by exact_mod_cast hh0
  have cm0 : (0 : ℚ) ≤ (t.minute : ℚ) := by exact_mod_cast hm0
  have cs0 : (0 : ℚ) ≤ (t.second : ℚ) := by exact_mod_cast hs0
  have cu0 : (0 : ℚ) ≤ (t.microsecond : ℚ) / 1000000 := by positivity
  unfold toSeconds
  rcases hm with ((h | h) | h) | h
  · have : (1 : ℚ) ≤ (t.hour : ℚ) := by exact_mod_cast (by omega : 1 ≤ t.hour)
    linarith
  · have : (1 : ℚ) ≤ (t.minute : ℚ) := by exact_mod_cast (by omega : 1 ≤ t.minute)
    linarith
  · have : (1 : ℚ) ≤ (t.second : ℚ) := by exact_mod_cast (by omega : 1 ≤ t.second)
    linarith
  · have h1 : (1 : ℚ) ≤ (t.microsecond : ℚ) := by
      exact_mod_cast (by omega : 1 ≤ t.microsecond)
    have : (1 : ℚ) / 1000000 ≤ (t.microsecond : ℚ) / 1000000 := by
      apply div_le_div_of_nonneg_right h1 (by norm_num)
    linarith

theorem weekday_bounds (t : PyDateTime) : 0 ≤ weekday t ∧ weekday t < 7 := by
  unfold weekday
  omega

theorem weekFloor_spec {t : PyDateTime} (hv : Valid t) :
    Valid (weekFloor t) ∧ isMidnight (weekFloor t) = true ∧
      toordinal (weekFloor t) = toordinal t - weekday t ∧
      weekday (weekFloor t) = 0 ∧ toSeconds (weekFloor t) ≤ toSeconds t := by
  have hord := valid_ord_min hv
  have hwd := weekday_bounds t
  have hguard : ((weekday t).toNat : ℤ) + 1 ≤ toordinal t := by
    unfold weekday at hwd ⊢
    omega
  have hsub := subDays_spec (weekday t).toNat hv hguard
  have hordsub : toordinal (subDays (weekday t).toNat t) = toordinal t - weekday t := by
    rw [hsub.2]
    omega
  unfold weekFloor
  refine ⟨replaceMidnight_valid hsub.1, replaceMidnight_isMidnight _, ?_, ?_, ?_⟩
  · rw [replaceMidnight_ord, hordsub]
  · show (toordinal (replaceMidnight (subDays (weekday t).toNat t)) + 6) % 7 = 0
    rw [replaceMidnight_ord, hordsub]
    unfold weekday
    omega
  · calc toSeconds (replaceMidnight (subDays (weekday t).toNat t))
        = 86400 * (toordinal (subDays (weekday t).toNat t) : ℚ) := by
          rw [toSeconds_midnight (replaceMidnight_isMidnight _), replaceMidnight_ord]
      _ ≤ 86400 * (toordinal t : ℚ) := by
          have : (toordinal (subDays (weekday t).toNat t) : ℚ) ≤ (toordinal t : ℚ) := by
            rw [hordsub]
            have : toordinal t - weekday t ≤ toordinal t := by omega
            exact_mod_cast this
          linarith
      _ ≤ toSeconds t := (toSeconds_bounds hv).1

theorem nextMonthD_fields (t : PyDateTime) :
    (nextMonthD t).day = t.day ∧ (nextMonthD t).hour = t.hour ∧
    (nextMonthD t).minute = t.minute ∧ (nextMonthD t).second = t.second ∧
    (nextMonthD t).microsecond = t.microsecond := by
  unfold nextMonthD
  split_ifs <;> exact ⟨rfl, rfl, rfl, rfl, rfl⟩

theorem nextMonthD_spec {t : PyDateTime} (hv : Valid t) (hd : t.day = 1) :
    Valid (nextMonthD t) ∧
      toordinal (nextMonthD t) = toordinal t + days_in_month t.year t.month := by
  have hb1 := days_in_month_bounds t.year (t.month + 1)
  have hb0 := days_in_month_bounds t.year t.month
  have hb12 := days_in_month_bounds (t.year + 1) 1
  unfold Valid at hv
  obtain ⟨hy, hm1, hm2, hd1, hd2, hrest⟩ := hv
  unfold nextMonthD
  by_cases h12 : t.month = 12
  · rw [if_pos h12]
    constructor
    · unfold Valid
      dsimp only
      exact ⟨by omega, by norm_num, by norm_num, hd1, by omega, hrest⟩
    · unfold toordinal
      dsimp only
      rw [hd, h12]
      have h1 := ymd2ord_year_rollover t.year
      have h2 := ymd2ord_day_offset t.year 12 31
      have h3 : days_in_month t.year 12 = 31 := by
        unfold days_in_month
        norm_num
      omega
  · rw [if_neg h12]
    constructor
    · unfold Valid
      dsimp only
      exact ⟨hy, by omega, by omega, hd1, by omega, hrest⟩
    · unfold toordinal
      dsimp only
      rw [hd]
      have h1 := ymd2ord_month_rollover t.year hm1 (by omega : t.month ≤ 11)
      have h2 := ymd2ord_day_offset t.year t.month (days_in_month t.year t.month)
      omega

theorem replaceMonthStart_valid {t : PyDateTime} (hv : Valid t) :
    Valid (replaceMonthStart t) := by
  have hb := days_in_month_bounds t.year t.month
  unfold Valid at hv ⊢
  unfold replaceMonthStart
  dsimp only
  obtain ⟨hy, hm1, hm2, -, -, -⟩ := hv
  exact ⟨hy, hm1, hm2, by norm_num, by omega, by norm_num⟩

theorem replaceMonthStart_boundary (t : PyDateTime) :
    isMonthBoundary (replaceMonthStart t) = true := by
  simp [isMonthBoundary, isMidnight, replaceMonthStart]

theorem replaceMonthStart_ord (t : PyDateTime) :
    toordinal (replaceMonthStart t) = ymd2ord t.year t.month 1 := rfl

theorem replaceMonthStart_eq_self {t : PyDateTime} (hb : isMonthBoundary t = true) :
    replaceMonthStart t = t := by
  unfold isMonthBoundary isMidnight at hb
  simp only [Bool.and_eq_true, decide_eq_true_eq] at hb
  obtain ⟨hd, ⟨⟨⟨h1, h2⟩, h3⟩, h4⟩⟩ := hb
  unfold replaceMonthStart
  cases t
  simp_all

theorem sec_replaceMonthStart_le {t : PyDateTime} (hv : Valid t) :
    toSeconds (replaceMonthStart t) ≤ toSeconds t := by
  have hmb := replaceMonthStart_boundary t
  have hmid : isMidnight (replaceMonthStart t) = true := by
    unfold isMonthBoundary at hmb
    exact (Bool.and_eq_true _ _).mp hmb |>.2
  rw [toSeconds_midnight hmid, replaceMonthStart_ord]
  have h1 := (toSeconds_bounds hv).1
  have h2 : ymd2ord t.year t.month 1 ≤ toordinal t := by
    unfold toordinal
    have := ymd2ord_day_offset t.year t.month t.day
    obtain ⟨-, -, -, hd1, -⟩ := hv
    omega
  have : (ymd2ord t.year t.month 1 : ℚ) ≤ (toordinal t : ℚ) := by exact_mod_cast h2
  linarith

theorem dayLoop_succ (s e : PyDateTime) (f : ℕ) (c : PyDateTime) :
    dayLoop s e (f + 1) c =
      if pylt c e = true then
        (if pyle s c = true then [(c, pymin (addOneDay c) e)] else []) ++
          dayLoop s e f (addOneDay c)
      else [] := rfl

theorem dayLoop_spec (start_time end_time : PyDateTime) (he : Valid end_time) :
    ∀ (fuel : ℕ) (current : PyDateTime), Valid current → isMidnight current = true →
      toSeconds start_time ≤ toSeconds current →
      (pylt current end_time = true →
        (toordinal end_time - toordinal current).toNat < fuel) →
      (∀ p ∈ dayLoop start_time end_time fuel current,
          Valid p.1 ∧ isMidnight p.1 = true ∧
          toSeconds start_time ≤ toSeconds p.1 ∧ toSeconds p.1 < toSeconds end_time ∧
          p.2 = pymin (addOneDay p.1) end_time) ∧
      (dayLoop start_time end_time fuel current).Chain' (fun p q => q.1 = p.2) ∧
      (pylt current end_time = true →
        (dayLoop start_time end_time fuel current).head? =
          some (current, pymin (addOneDay current) end_time)) ∧
      (pylt current end_time = false → dayLoop start_time end_time fuel current = []) ∧
      (∀ p, (dayLoop start_time end_time fuel current).getLast? = some p →
        toSeconds p.2 = toSeconds end_time) := by
  intro fuel
  induction fuel with
  | zero =>
      intro current hv hm hsc hfuel
      refine ⟨by simp [dayLoop], by simp [dayLoop], ?_, fun _ => rfl, by simp [dayLoop]⟩
      intro hg
      exact absurd (hfuel hg) (by omega)
  | succ f ih =>
      intro current hv hm hsc hfuel
      by_cases hg : pylt current end_time = true
      case neg =>
        have hgf : pylt current end_time = false := by rwa [Bool.not_eq_true] at hg
        have hL : dayLoop start_time end_time (f + 1) current = [] := by
          rw [dayLoop_succ, if_neg hg]
        rw [hL]
        exact ⟨by simp, by simp, fun hgt => absurd hgt hg, fun _ => rfl, by simp⟩
      case pos =>
        have hsec : toSeconds current < toSeconds end_time := (pylt_iff _ _).mp hg
        have hstep := addOneDay_spec hv
        have hm' : isMidnight (addOneDay current) = true := by
          rw [addOneDay_midnight, hm]
        have hsecstep : toSeconds (addOneDay current) = toSeconds current + 86400 := by
          rw [toSeconds_midnight hm', toSeconds_midnight hm, hstep.2]
          push_cast
          ring
        have hsc' : toSeconds start_time ≤ toSeconds (addOneDay current) := by linarith
        have hfuel' : pylt (addOneDay current) end_time = true →
            (toordinal end_time - toordinal (addOneDay current)).toNat < f := by
          intro hg'
          have h1 := hfuel hg
          have h2 : toordinal (addOneDay current) ≤ toordinal end_time :=
            ord_le_of_sec_le hstep.1 he (le_of_lt ((pylt_iff _ _).mp hg'))
          rw [hstep.2] at h2 ⊢
          omega
        have ih' := ih (addOneDay current) hstep.1 hm' hsc' hfuel'
        have hL : dayLoop start_time end_time (f + 1) current =
            (current, pymin (addOneDay current) end_time) ::
              dayLoop start_time end_time f (addOneDay current) := by
          rw [dayLoop_succ, if_pos hg, if_pos ((pyle_iff _ _).mpr hsc),
            List.singleton_append]
        refine ⟨?_, ?_, ?_, ?_, ?_⟩
        · intro p hp
          rw [hL] at hp
          rcases List.mem_cons.mp hp with hp | hp
          · subst hp
            exact ⟨hv, hm, hsc, hsec, rfl⟩
          · exact ih'.1 p hp
        · rw [hL, List.chain'_cons']
          refine ⟨?_, ih'.2.1⟩
          intro q hq
          rcases hrg : pylt (addOneDay current) end_time with _ | _
          · rw [ih'.2.2.2.1 hrg] at hq
            simp at hq
          · rw [ih'.2.2.1 hrg] at hq
            simp only [Option.mem_def, Option.some_inj] at hq
            rw [← hq]
            dsimp only
            rw [pymin_eq_left (le_of_lt ((pylt_iff _ _).mp hrg))]
        · intro _
          rw [hL]
          rfl
        · intro hgf
          rw [hg] at hgf
          exact absurd hgf (by simp)
        · intro p hp
          rw [hL] at hp
          rcases hrest : dayLoop start_time end_time f (addOneDay current)
            with _ | ⟨r, rs⟩
          · rw [hrest] at hp
            simp only [List.getLast?_singleton, Option.some_inj] at hp
            have hg' : pylt (addOneDay current) end_time = false := by
              rcases hgc : pylt (addOneDay current) end_time with _ | _
              · rfl
              · have hh := ih'.2.2.1 hgc
                rw [hrest] at hh
                simp at hh
            have hse : toSeconds end_time ≤ toSeconds (addOneDay current) :=
              (pylt_false_iff _ _).mp hg'
            rw [← hp]
            dsimp only
            rw [toSeconds_pymin]
            exact min_eq_right hse
          · rw [hrest, List.getLast?_cons_cons] at hp
            exact ih'.2.2.2.2 p (by rw [hrest]; exact hp)

theorem monthLoop_succ (s e : PyDateTime) (f : ℕ) (c : PyDateTime) :
    monthLoop s e (f + 1) c =
      if pylt c e = true then
        (if pyle s c = true then [(c, pymin (nextMonthD c) e)] else []) ++
          monthLoop s e f (nextMonthD c)
      else [] := rfl

theorem monthBoundary_parts {t : PyDateTime} (hb : isMonthBoundary t = true) :
    t.day = 1 ∧ isMidnight t = true := by
  unfold isMonthBoundary at hb
  simp only [Bool.and_eq_true, decide_eq_true_eq] at hb
  exact hb

theorem nextMonthD_boundary (t : PyDateTime) :
    isMonthBoundary (nextMonthD t) = isMonthBoundary t := by
  obtain ⟨h0, h1, h2, h3, h4⟩ := nextMonthD_fields t
  unfold isMonthBoundary isMidnight
  rw [h0, h1, h2, h3, h4]

theorem monthLoop_spec (start_time end_time : PyDateTime) (he : Valid end_time) :
    ∀ (fuel : ℕ) (current : PyDateTime), Valid current →
      isMonthBoundary current = true →
      toSeconds start_time ≤ toSeconds current →
      (pylt current end_time = true →
        (toordinal end_time - toordinal current).toNat < fuel) →
      (∀ p ∈ monthLoop start_time end_time fuel current,
          Valid p.1 ∧ isMonthBoundary p.1 = true ∧
          toSeconds start_time ≤ toSeconds p.1 ∧ toSeconds p.1 < toSeconds end_time ∧
          p.2 = pymin (nextMonthD p.1) end_time) ∧
      (monthLoop start_time end_time fuel current).Chain' (fun p q => q.1 = p.2) ∧
      (pylt current end_time = true →
        (monthLoop start_time end_time fuel current).head? =
          some (current, pymin (nextMonthD current) end_time)) ∧
      (pylt current end_time = false → monthLoop start_time end_time fuel current = []) ∧
      (∀ p, (monthLoop start_time end_time fuel current).getLast? = some p →
        toSeconds p.2 = toSeconds end_time) := by
  intro fuel
  induction fuel with
  | zero =>
      intro current hv hb hsc hfuel
      refine ⟨by simp [monthLoop], by simp [monthLoop], ?_, fun _ => rfl,
        by simp [monthLoop]⟩
      intro hg
      exact absurd (hfuel hg) (by omega)
  | succ f ih =>
      intro current hv hb hsc hfuel
      by_cases hg : pylt current end_time = true
      case neg =>
        have hL : monthLoop start_time end_time (f + 1) current = [] := by
          rw [monthLoop_succ, if_neg hg]
        rw [hL]
        exact ⟨by simp, by simp, fun hgt => absurd hgt hg, fun _ => rfl, by simp⟩
      case pos =>
        have hsec : toSeconds current < toSeconds end_time := (pylt_iff _ _).mp hg
        obtain ⟨hd1, hm⟩ := monthBoundary_parts hb
        have hstep := nextMonthD_spec hv hd1
        have hdim := days_in_month_bounds current.year current.month
        have hb' : isMonthBoundary (nextMonthD current) = true := by
          rw [nextMonthD_boundary, hb]
        have hm' : isMidnight (nextMonthD current) = true :=
          (monthBoundary_parts hb').2
        have hsecstep : toSeconds (nextMonthD current) =
            toSeconds current + 86400 * (days_in_month current.year current.month : ℚ) := by
          rw [toSeconds_midnight hm', toSeconds_midnight hm, hstep.2]
          push_cast
          ring
        have hsc' : toSeconds start_time ≤ toSeconds (nextMonthD current) := by
          have : (28 : ℚ) ≤ (days_in_month current.year current.month : ℚ) := by
            exact_mod_cast hdim.1
          nlinarith
        have hfuel' : pylt (nextMonthD current) end_time = true →
            (toordinal end_time - toordinal (nextMonthD current)).toNat < f := by
          intro hg'
          have h1 := hfuel hg
          have h2 : toordinal (nextMonthD current) ≤ toordinal end_time :=
            ord_le_of_sec_le hstep.1 he (le_of_lt ((pylt_iff _ _).mp hg'))
          rw [hstep.2] at h2 ⊢
          omega
        have ih' := ih (nextMonthD current) hstep.1 hb' hsc' hfuel'
        have hL : monthLoop start_time end_time (f + 1) current =
            (current, pymin (nextMonthD current) end_time) ::
              monthLoop start_time end_time f (nextMonthD current) := by
          rw [monthLoop_succ, if_pos hg, if_pos ((pyle_iff _ _).mpr hsc),
            List.singleton_append]
        refine ⟨?_, ?_, ?_, ?_, ?_⟩
        · intro p hp
          rw [hL] at hp
          rcases List.mem_cons.mp hp with hp | hp
          · subst hp
            exact ⟨hv, hb, hsc, hsec, rfl⟩
          · exact ih'.1 p hp
        · rw [hL, List.chain'_cons']
          refine ⟨?_, ih'.2.1⟩
          intro q hq
          rcases hrg : pylt (nextMonthD current) end_time with _ | _
          · rw [ih'.2.2.2.1 hrg] at hq
            simp at hq
          · rw [ih'.2.2.1 hrg] at hq
            simp only [Option.mem_def, Option.some_inj] at hq
            rw [← hq]
            dsimp only
            rw [pymin_eq_left (le_of_lt ((pylt_iff _ _).mp hrg))]
        · intro _
          rw [hL]
          rfl
        · intro hgf
          rw [hgf] at hg
          exact absurd hg (by simp)
        · intro p hp
          rw [hL] at hp
          rcases hrest : monthLoop start_time end_time f (nextMonthD current)
            with _ | ⟨r, rs⟩
          · rw [hrest] at hp
            simp only [List.getLast?_singleton, Option.some_inj] at hp
            have hg' : pylt (nextMonthD current) end_time = false := by
              rcases hgc : pylt (nextMonthD current) end_time with _ | _
              · rfl
              · have hh := ih'.2.2.1 hgc
                rw [hrest] at hh
                simp at hh
            have hse : toSeconds end_time ≤ toSeconds (nextMonthD current) :=
              (pylt_false_iff _ _).mp hg'
            rw [← hp]
            dsimp only
            rw [toSeconds_pymin]
            exact min_eq_right hse
          · rw [hrest, List.getLast?_cons_cons] at hp
            exact ih'.2.2.2.2 p (by rw [hrest]; exact hp)

theorem weekLoop_succ (s e : PyDateTime) (f : ℕ) (c : PyDateTime) :
    weekLoop s e (f + 1) c =
      if pylt c e = true then
        (if (pyle s c || pylt s (pymin (addDays 7 c) e)) = true then
          [(pymax c s, pymin (addDays 7 c) e)]
         else []) ++
          weekLoop s e f (addDays 7 c)
      else [] := rfl

theorem weekBoundary_parts {t : PyDateTime} (hb : isWeekBoundary t = true) :
    isMidnight t = true ∧ weekday t = 0 := by
  unfold isWeekBoundary at hb
  simp only [Bool.and_eq_true, decide_eq_true_eq] at hb
  exact hb

theorem weekBoundary_step {t : PyDateTime} (hv : Valid t) :
    isWeekBoundary (addDays 7 t) = isWeekBoundary t := by
  unfold isWeekBoundary
  rw [addDays_midnight]
  have h := (addDays_spec 7 hv).2
  have hw : weekday (addDays 7 t) = weekday t := by
    unfold weekday
    rw [h]
    push_cast
    omega
  rw [hw]

theorem weekLoop_spec (start_time end_time : PyDateTime) (he : Valid end_time) :
    ∀ (fuel : ℕ) (current : PyDateTime), Valid current →
      isWeekBoundary current = true →
      toSeconds start_time ≤ toSeconds current →
      (pylt current end_time = true →
        (toordinal end_time - toordinal current).toNat < fuel) →
      (∀ p ∈ weekLoop start_time end_time fuel current,
          Valid p.1 ∧ isWeekBoundary p.1 = true ∧
          toSeconds start_time ≤ toSeconds p.1 ∧ toSeconds p.1 < toSeconds end_time ∧
          p.2 = pymin (addDays 7 p.1) end_time) ∧
      (weekLoop start_time end_time fuel current).Chain' (fun p q => q.1 = p.2) ∧
      (pylt current end_time = true →
        (weekLoop start_time end_time fuel current).head? =
          some (current, pymin (addDays 7 current) end_time)) ∧
      (pylt current end_time = false → weekLoop start_time end_time fuel current = []) ∧
      (∀ p, (weekLoop start_time end_time fuel current).getLast? = some p →
        toSeconds p.2 = toSeconds end_time) := by
  intro fuel
  induction fuel with
  | zero =>
      intro current hv hb hsc hfuel
      refine ⟨by simp [weekLoop], by simp [weekLoop], ?_, fun _ => rfl,
        by simp [weekLoop]⟩
      intro hg
      exact absurd (hfuel hg) (by omega)
  | succ f ih =>
      intro current hv hb hsc hfuel
      by_cases hg : pylt current end_time = true
      case neg =>
        have hL : weekLoop start_time end_time (f + 1) current = [] := by
          rw [weekLoop_succ, if_neg hg]
        rw [hL]
        exact ⟨by simp, by simp, fun hgt => absurd hgt hg, fun _ => rfl, by simp⟩
      case pos =>
        have hsec : toSeconds current < toSeconds end_time := (pylt_iff _ _).mp hg
        obtain ⟨hm, -⟩ := weekBoundary_parts hb
        have hstep := addDays_spec 7 hv
        have hb' : isWeekBoundary (addDays 7 current) = true := by
          rw [weekBoundary_step hv, hb]
        have hm' : isMidnight (addDays 7 current) = true :=
          (weekBoundary_parts hb').1
        have hsecstep : toSeconds (addDays 7 current) =
            toSeconds current + 7 * 86400 := by
          rw [toSeconds_midnight hm', toSeconds_midnight hm, hstep.2]
          push_cast
          ring
        have hsc' : toSeconds start_time ≤ toSeconds (addDays 7 current) := by linarith
        have hfuel' : pylt (addDays 7 current) end_time = true →
            (toordinal end_time - toordinal (addDays 7 current)).toNat < f := by
          intro hg'
          have h1 := hfuel hg
          have h2 : toordinal (addDays 7 current) ≤ toordinal end_time :=
            ord_le_of_sec_le hstep.1 he (le_of_lt ((pylt_iff _ _).mp hg'))
          rw [hstep.2] at h2 ⊢
          push_cast at h2 ⊢
          omega
        have ih' := ih (addDays 7 current) hstep.1 hb' hsc' hfuel'
        have hcond : (pyle start_time current ||
            pylt start_time (pymin (addDays 7 current) end_time)) = true := by
          rw [(pyle_iff _ _).mpr hsc]
          simp
        have hL : weekLoop start_time end_time (f + 1) current =
            (current, pymin (addDays 7 current) end_time) ::
              weekLoop start_time end_time f (addDays 7 current) := by
          rw [weekLoop_succ, if_pos hg, if_pos hcond, List.singleton_append,
            pymax_eq_left hsc]
        refine ⟨?_, ?_, ?_, ?_, ?_⟩
        · intro p hp
          rw [hL] at hp
          rcases List.mem_cons.mp hp with hp | hp
          · subst hp
            exact ⟨hv, hb, hsc, hsec, rfl⟩
          · exact ih'.1 p hp
        · rw [hL, List.chain'_cons']
          refine ⟨?_, ih'.2.1⟩
          intro q hq
          rcases hrg : pylt (addDays 7 current) end_time with _ | _
          · rw [ih'.2.2.2.1 hrg] at hq
            simp at hq
          · rw [ih'.2.2.1 hrg] at hq
            simp only [Option.mem_def, Option.some_inj] at hq
            rw [← hq]
            dsimp only
            rw [pymin_eq_left (le_of_lt ((pylt_iff _ _).mp hrg))]
        · intro _
          rw [hL]
          rfl
        · intro hgf
          rw [hgf] at hg
          exact absurd hg (by simp)
        · intro p hp
          rw [hL] at hp
          rcases hrest : weekLoop start_time end_time f (addDays 7 current)
            with _ | ⟨r, rs⟩
          · rw [hrest] at hp
            simp only [List.getLast?_singleton, Option.some_inj] at hp
            have hg' : pylt (addDays 7 current) end_time = false := by
              rcases hgc : pylt (addDays 7 current) end_time with _ | _
              · rfl
              · have hh := ih'.2.2.1 hgc
                rw [hrest] at hh
                simp at hh
            have hse : toSeconds end_time ≤ toSeconds (addDays 7 current) :=
              (pylt_false_iff _ _).mp hg'
            rw [← hp]
            dsimp only
            rw [toSeconds_pymin]
            exact min_eq_right hse
          · rw [hrest, List.getLast?_cons_cons] at hp
            exact ih'.2.2.2.2 p (by rw [hrest]; exact hp)

end Sla

namespace Sla

theorem pyle_false_iff (a b : PyDateTime) :
    pyle a b = false ↔ toSeconds b < toSeconds a := by
  simp only [Bool.eq_false_iff, ne_eq, pyle_iff, not_le]

theorem generate_buckets_day (s e : PyDateTime) :
    generate_buckets s e .day =
      dayLoop s e (loopFuel (replaceMidnight s) e) (replaceMidnight s) := rfl

theorem generate_buckets_week (s e : PyDateTime) :
    generate_buckets s e .week =
      weekLoop s e (loopFuel (weekFloor s) e) (weekFloor s) := rfl

theorem generate_buckets_month (s e : PyDateTime) :
    generate_buckets s e .month =
      monthLoop s e (loopFuel (replaceMonthStart s) e) (replaceMonthStart s) := rfl

theorem generate_buckets_day_spec {s e : PyDateTime} (hs : Valid s) (he : Valid e) :
    (∀ p ∈ generate_buckets s e .day, Valid p.1 ∧ isMidnight p.1 = true ∧
       toSeconds s ≤ toSeconds p.1 ∧ toSeconds p.1 < toSeconds e ∧
       p.2 = pymin (addOneDay p.1) e) ∧
    (generate_buckets s e .day).Chain' (fun p q => q.1 = p.2) ∧
    (∀ p, (generate_buckets s e .day).head? = some p → p.1 = firstDayBoundary s) ∧
    (∀ p, (generate_buckets s e .day).getLast? = some p →
      toSeconds p.2 = toSeconds e) ∧
    (toSeconds (firstDayBoundary s) < toSeconds e →
      generate_buckets s e .day ≠ []) := by
  by_cases hm : isMidnight s = true
  · have hc0 : replaceMidnight s = s := replaceMidnight_eq_self hm
    have hfdb : firstDayBoundary s = s := by
      unfold firstDayBoundary
      rw [if_pos hm]
    have spec := dayLoop_spec s e he (loopFuel s e) s hs hm (le_refl _)
      (fun _ => by unfold loopFuel; omega)
    rw [generate_buckets_day, hc0]
    refine ⟨spec.1, spec.2.1, ?_, spec.2.2.2.2, ?_⟩
    · intro p hp
      by_cases hg : pylt s e = true
      · rw [spec.2.2.1 hg] at hp
        rw [Option.some_inj] at hp
        rw [← hp, hfdb]
      · rw [Bool.not_eq_true] at hg
        rw [spec.2.2.2.1 hg] at hp
        simp at hp
    · intro hlt
      rw [hfdb] at hlt
      have hg : pylt s e = true := (pylt_iff _ _).mpr hlt
      have hh := spec.2.2.1 hg
      intro hnil
      rw [hnil] at hh
      simp at hh
  · have hm' : isMidnight s = false := by rwa [Bool.not_eq_true] at hm
    have hv0 : Valid (replaceMidnight s) := replaceMidnight_valid hs
    have hm0 : isMidnight (replaceMidnight s) = true := replaceMidnight_isMidnight s
    have hsec0 : toSeconds (replaceMidnight s) < toSeconds s := sec_replaceMidnight_lt hs hm'
    have hstep := addOneDay_spec hv0
    have hm1 : isMidnight (addOneDay (replaceMidnight s)) = true := by
      rw [addOneDay_midnight, hm0]
    have hsec1 : toSeconds (addOneDay (replaceMidnight s)) =
        toSeconds (replaceMidnight s) + 86400 := by
      rw [toSeconds_midnight hm1, toSeconds_midnight hm0, hstep.2]
      push_cast
      ring
    have hscs : toSeconds s < toSeconds (addOneDay (replaceMidnight s)) := by
      have h1 := (toSeconds_bounds hs).2
      have h2 : toSeconds (replaceMidnight s) = 86400 * (toordinal s : ℚ) := by
        rw [toSeconds_midnight hm0, replaceMidnight_ord]
      linarith
    have hfdb : firstDayBoundary s = addOneDay (replaceMidnight s) := by
      unfold firstDayBoundary
      rw [if_neg hm]
    by_cases hg0 : pylt (replaceMidnight s) e = true
    · have hskip : pyle s (replaceMidnight s) = false := (pyle_false_iff _ _).mpr hsec0
      have hunf : generate_buckets s e .day =
          dayLoop s e ((toordinal e - toordinal (replaceMidnight s)).toNat)
            (addOneDay (replaceMidnight s)) := by
        rw [generate_buckets_day]
        unfold loopFuel
        rw [dayLoop_succ, if_pos hg0, if_neg (by rw [hskip]; simp), List.nil_append]
      have hfuel1 : pylt (addOneDay (replaceMidnight s)) e = true →
          (toordinal e - toordinal (addOneDay (replaceMidnight s))).toNat <
            (toordinal e - toordinal (replaceMidnight s)).toNat := by
        intro hg'
        have h2 : toordinal (addOneDay (replaceMidnight s)) ≤ toordinal e :=
          ord_le_of_sec_le hstep.1 he (le_of_lt ((pylt_iff _ _).mp hg'))
        rw [hstep.2] at h2 ⊢
        omega
      have spec := dayLoop_spec s e he ((toordinal e - toordinal (replaceMidnight s)).toNat)
        (addOneDay (replaceMidnight s)) hstep.1 hm1 (le_of_lt hscs) hfuel1
      rw [hunf, hfdb]
      refine ⟨spec.1, spec.2.1, ?_, spec.2.2.2.2, ?_⟩
      · intro p hp
        by_cases hg : pylt (addOneDay (replaceMidnight s)) e = true
        · rw [spec.2.2.1 hg] at hp
          rw [Option.some_inj] at hp
          rw [← hp]
        · rw [Bool.not_eq_true] at hg
          rw [spec.2.2.2.1 hg] at hp
          simp at hp
      · intro hlt
        have hg : pylt (addOneDay (replaceMidnight s)) e = true := (pylt_iff _ _).mpr hlt
        have hh := spec.2.2.1 hg
        intro hnil
        rw [hnil] at hh
        simp at hh
    · have hg0' : pylt (replaceMidnight s) e = false := by
        rwa [Bool.not_eq_true] at hg0
      have hse : toSeconds e ≤ toSeconds (replaceMidnight s) := (pylt_false_iff _ _).mp hg0'
      have hunf : generate_buckets s e .day = [] := by
        rw [generate_buckets_day]
        unfold loopFuel
        rw [dayLoop_succ, if_neg hg0]
      rw [hunf]
      refine ⟨by simp, by simp, by simp, by simp, ?_⟩
      intro hlt
      rw [hfdb] at hlt
      linarith

theorem sec_replaceMonthStart_lt {t : PyDateTime} (hv : Valid t)
    (hb : isMonthBoundary t = false) :
    toSeconds (replaceMonthStart t) < toSeconds t := by
  have hmb := replaceMonthStart_boundary t
  have hmid : isMidnight (replaceMonthStart t) = true := (monthBoundary_parts hmb).2
  unfold isMonthBoundary at hb
  rw [Bool.and_eq_false_iff] at hb
  by_cases hd : t.day = 1
  · have hm' : isMidnight t = false := by
      rcases hb with hb | hb
      · simp [hd] at hb
      · exact hb
    have h1 := sec_replaceMidnight_lt hv hm'
    have h2 : toSeconds (replaceMonthStart t) = toSeconds (replaceMidnight t) := by
      rw [toSeconds_midnight hmid, toSeconds_midnight (replaceMidnight_isMidnight t),
        replaceMidnight_ord, replaceMonthStart_ord]
      unfold toordinal
      rw [hd]
    linarith
  · have hd2 : 2 ≤ t.day := by
      obtain ⟨-, -, -, hd1, -⟩ := hv
      omega
    rw [toSeconds_midnight hmid, replaceMonthStart_ord]
    have hoff := ymd2ord_day_offset t.year t.month t.day
    have h1 : ymd2ord t.year t.month 1 + 1 ≤ toordinal t := by
      unfold toordinal
      omega
    have h2 := (toSeconds_bounds hv).1
    have : (ymd2ord t.year t.month 1 : ℚ) + 1 ≤ (toordinal t : ℚ) := by exact_mod_cast h1
    linarith

theorem generate_buckets_month_spec {s e : PyDateTime} (hs : Valid s) (he : Valid e) :
    (∀ p ∈ generate_buckets s e .month, Valid p.1 ∧ isMonthBoundary p.1 = true ∧
       toSeconds s ≤ toSeconds p.1 ∧ toSeconds p.1 < toSeconds e ∧
       p.2 = pymin (nextMonthD p.1) e) ∧
    (generate_buckets s e .month).Chain' (fun p q => q.1 = p.2) ∧
    (∀ p, (generate_buckets s e .month).head? = some p → p.1 = firstMonthBoundary s) ∧
    (∀ p, (generate_buckets s e .month).getLast? = some p →
      toSeconds p.2 = toSeconds e) ∧
    (toSeconds (firstMonthBoundary s) < toSeconds e →
      generate_buckets s e .month ≠ []) := by
  by_cases hm : isMonthBoundary s = true
  · have hc0 : replaceMonthStart s = s := replaceMonthStart_eq_self hm
    have hfdb : firstMonthBoundary s = s := by
      unfold firstMonthBoundary
      rw [if_pos hm]
    have spec := monthLoop_spec s e he (loopFuel s e) s hs hm (le_refl _)
      (fun _ => by unfold loopFuel; omega)
    rw [generate_buckets_month, hc0]
    refine ⟨spec.1, spec.2.1, ?_, spec.2.2.2.2, ?_⟩
    · intro p hp
      by_cases hg : pylt s e = true
      · rw [spec.2.2.1 hg] at hp
        rw [Option.some_inj] at hp
        rw [← hp, hfdb]
      · rw [Bool.not_eq_true] at hg
        rw [spec.2.2.2.1 hg] at hp
        simp at hp
    · intro hlt
      rw [hfdb] at hlt
      have hg : pylt s e = true := (pylt_iff _ _).mpr hlt
      have hh := spec.2.2.1 hg
      intro hnil
      rw [hnil] at hh
      simp at hh
  · have hm' : isMonthBoundary s = false := by rwa [Bool.not_eq_true] at hm
    have hv0 : Valid (replaceMonthStart s) := replaceMonthStart_valid hs
    have hb0 : isMonthBoundary (replaceMonthStart s) = true := replaceMonthStart_boundary s
    have hm0 : isMidnight (replaceMonthStart s) = true := (monthBoundary_parts hb0).2
    have hsec0 : toSeconds (replaceMonthStart s) < toSeconds s :=
      sec_replaceMonthStart_lt hs hm'
    have hstep := nextMonthD_spec hv0 rfl
    have hb1 : isMonthBoundary (nextMonthD (replaceMonthStart s)) = true := by
      rw [nextMonthD_boundary, hb0]
    have hm1 : isMidnight (nextMonthD (replaceMonthStart s)) = true :=
      (monthBoundary_parts hb1).2
    have hdim := days_in_month_bounds s.year s.month
    have hordc1 : toordinal s + 1 ≤ toordinal (nextMonthD (replaceMonthStart s)) := by
      rw [hstep.2, replaceMonthStart_ord]
      have hoff := ymd2ord_day_offset s.year s.month s.day
      obtain ⟨-, -, -, -, hd2, -⟩ := hs
      unfold toordinal
      have hdim2 := days_in_month_bounds (replaceMonthStart s).year (replaceMonthStart s).month
      have hyy : (replaceMonthStart s).year = s.year := rfl
      have hmm : (replaceMonthStart s).month = s.month := rfl
      rw [hyy, hmm]
      omega
    have hscs : toSeconds s < toSeconds (nextMonthD (replaceMonthStart s)) := by
      have h1 := (toSeconds_bounds hs).2
      have h2 : toSeconds (nextMonthD (replaceMonthStart s)) =
          86400 * (toordinal (nextMonthD (replaceMonthStart s)) : ℚ) :=
        toSeconds_midnight hm1
      have h3 : ((toordinal s : ℚ) + 1) ≤
          (toordinal (nextMonthD (replaceMonthStart s)) : ℚ) := by
        exact_mod_cast hordc1
      nlinarith
    have hfdb : firstMonthBoundary s = nextMonthD (replaceMonthStart s) := by
      unfold firstMonthBoundary
      rw [if_neg hm]
    by_cases hg0 : pylt (replaceMonthStart s) e = true
    · have hskip : pyle s (replaceMonthStart s) = false := (pyle_false_iff _ _).mpr hsec0
      have hunf : generate_buckets s e .month =
          monthLoop s e ((toordinal e - toordinal (replaceMonthStart s)).toNat)
            (nextMonthD (replaceMonthStart s)) := by
        rw [generate_buckets_month]
        unfold loopFuel
        rw [monthLoop_succ, if_pos hg0, if_neg (by rw [hskip]; simp), List.nil_append]
      have hfuel1 : pylt (nextMonthD (replaceMonthStart s)) e = true →
          (toordinal e - toordinal (nextMonthD (replaceMonthStart s))).toNat <
            (toordinal e - toordinal (replaceMonthStart s)).toNat := by
        intro hg'
        have h2 : toordinal (nextMonthD (replaceMonthStart s)) ≤ toordinal e :=
          ord_le_of_sec_le hstep.1 he (le_of_lt ((pylt_iff _ _).mp hg'))
        have hdim2 := days_in_month_bounds (replaceMonthStart s).year (replaceMonthStart s).month
        rw [hstep.2] at h2 ⊢
        omega
      have spec := monthLoop_spec s e he
        ((toordinal e - toordinal (replaceMonthStart s)).toNat)
        (nextMonthD (replaceMonthStart s)) hstep.1 hb1 (le_of_lt hscs) hfuel1
      rw [hunf, hfdb]
      refine ⟨spec.1, spec.2.1, ?_, spec.2.2.2.2, ?_⟩
      · intro p hp
        by_cases hg : pylt (nextMonthD (replaceMonthStart s)) e = true
        · rw [spec.2.2.1 hg] at hp
          rw [Option.some_inj] at hp
          rw [← hp]
        · rw [Bool.not_eq_true] at hg
          rw [spec.2.2.2.1 hg] at hp
          simp at hp
      · intro hlt
        have hg : pylt (nextMonthD (replaceMonthStart s)) e = true :=
          (pylt_iff _ _).mpr hlt
        have hh := spec.2.2.1 hg
        intro hnil
        rw [hnil] at hh
        simp at hh
    · have hg0' : pylt (replaceMonthStart s) e = false := by
        rwa [Bool.not_eq_true] at hg0
      have hse : toSeconds e ≤ toSeconds (replaceMonthStart s) := (pylt_false_iff _ _).mp hg0'
      have hunf : generate_buckets s e .month = [] := by
        rw [generate_buckets_month]
        unfold loopFuel
        rw [monthLoop_succ, if_neg hg0]
      rw [hunf]
      refine ⟨by simp, by simp, by simp, by simp, ?_⟩
      intro hlt
      rw [hfdb] at hlt
      linarith

theorem weekFloor_eq_self {t : PyDateTime} (hv : Valid t)
    (hb : isWeekBoundary t = true) : weekFloor t = t := by
  obtain ⟨hm, hw⟩ := weekBoundary_parts hb
  unfold weekFloor
  rw [hw]
  show replaceMidnight (subDays (0 : ℤ).toNat t) = t
  rw [show (0 : ℤ).toNat = 0 from rfl]
  show replaceMidnight t = t
  exact replaceMidnight_eq_self hm

theorem sec_weekFloor_lt {t : PyDateTime} (hv : Valid t)
    (hb : isWeekBoundary t = false) : toSeconds (weekFloor t) < toSeconds t := by
  have hwfs := weekFloor_spec hv
  have hwd := weekday_bounds t
  unfold isWeekBoundary at hb
  rw [Bool.and_eq_false_iff] at hb
  by_cases hw : weekday t = 0
  · have hm' : isMidnight t = false := by
      rcases hb with hb | hb
      · exact hb
      · simp [hw] at hb
    have h1 := sec_replaceMidnight_lt hv hm'
    have h2 : toSeconds (weekFloor t) = toSeconds (replaceMidnight t) := by
      rw [toSeconds_midnight hwfs.2.1, toSeconds_midnight (replaceMidnight_isMidnight t),
        replaceMidnight_ord, hwfs.2.2.1, hw]
      norm_num
    linarith
  · have hw1 : 1 ≤ weekday t := by omega
    rw [toSeconds_midnight hwfs.2.1, hwfs.2.2.1]
    have h1 : toordinal t - weekday t + 1 ≤ toordinal t := by omega
    have h2 := (toSeconds_bounds hv).1
    have h3 : ((toordinal t - weekday t : ℤ) : ℚ) + 1 ≤ (toordinal t : ℚ) := by
      exact_mod_cast h1
    linarith

theorem generate_buckets_week_spec {s e : PyDateTime} (hs : Valid s) (he : Valid e) :
    (∀ p ∈ generate_buckets s e .week, Valid p.1 ∧
       toSeconds s ≤ toSeconds p.1 ∧ toSeconds p.1 < toSeconds e ∧
       ((isWeekBoundary p.1 = true ∧ p.2 = pymin (addDays 7 p.1) e) ∨
        (p.1 = pymax (weekFloor s) s ∧ p.2 = pymin (addDays 7 (weekFloor s)) e))) ∧
    (generate_buckets s e .week).Chain' (fun p q => q.1 = p.2) ∧
    (∀ p, (generate_buckets s e .week).head? = some p →
      p.1 = pymax (weekFloor s) s) ∧
    (∀ p, (generate_buckets s e .week).getLast? = some p →
      toSeconds p.2 = toSeconds e) ∧
    (toSeconds s < toSeconds e → generate_buckets s e .week ≠ []) := by
  by_cases hb : isWeekBoundary s = true
  · have hwf : weekFloor s = s := weekFloor_eq_self hs hb
    have hmax : pymax s s = s := pymax_eq_left (le_refl _)
    have spec := weekLoop_spec s e he (loopFuel s e) s hs hb (le_refl _)
      (fun _ => by unfold loopFuel; omega)
    rw [generate_buckets_week, hwf, hmax]
    refine ⟨?_, spec.2.1, ?_, spec.2.2.2.2, ?_⟩
    · intro p hp
      obtain ⟨h1, h2, h3, h4, h5⟩ := spec.1 p hp
      exact ⟨h1, h3, h4, Or.inl ⟨h2, h5⟩⟩
    · intro p hp
      by_cases hg : pylt s e = true
      · rw [spec.2.2.1 hg] at hp
        rw [Option.some_inj] at hp
        rw [← hp]
      · rw [Bool.not_eq_true] at hg
        rw [spec.2.2.2.1 hg] at hp
        simp at hp
    · intro hlt
      have hg : pylt s e = true := (pylt_iff _ _).mpr hlt
      have hh := spec.2.2.1 hg
      intro hnil
      rw [hnil] at hh
      simp at hh
  · have hb' : isWeekBoundary s = false := by rwa [Bool.not_eq_true] at hb
    have hwfs := weekFloor_spec hs
    have hwd := weekday_bounds s
    have hb0 : isWeekBoundary (weekFloor s) = true := by
      unfold isWeekBoundary
      rw [hwfs.2.1, hwfs.2.2.2.1]
      simp
    have hsec0 : toSeconds (weekFloor s) < toSeconds s := sec_weekFloor_lt hs hb'
    have hstep := addDays_spec 7 hwfs.1
    have hb7 : isWeekBoundary (addDays 7 (weekFloor s)) = true := by
      rw [weekBoundary_step hwfs.1, hb0]
    have hm7 : isMidnight (addDays 7 (weekFloor s)) = true := (weekBoundary_parts hb7).1
    have hord7 : toordinal s + 1 ≤ toordinal (addDays 7 (weekFloor s)) := by
      rw [hstep.2, hwfs.2.2.1]
      push_cast
      omega
    have hscs : toSeconds s < toSeconds (addDays 7 (weekFloor s)) := by
      have h1 := (toSeconds_bounds hs).2
      have h2 := toSeconds_midnight hm7
      have h3 : ((toordinal s : ℚ) + 1) ≤ (toordinal (addDays 7 (weekFloor s)) : ℚ) := by
        exact_mod_cast hord7
      nlinarith
    have hmax : pymax (weekFloor s) s = s := pymax_eq_right hsec0
    by_cases hg0 : pylt (weekFloor s) e = true
    · by_cases hse : toSeconds s < toSeconds e
      · have hsmin : toSeconds s < toSeconds (pymin (addDays 7 (weekFloor s)) e) := by
          rw [toSeconds_pymin]
          exact lt_min hscs hse
        have hcond : (pyle s (weekFloor s) ||
            pylt s (pymin (addDays 7 (weekFloor s)) e)) = true := by
          rw [(pylt_iff _ _).mpr hsmin]
          simp
        have hfuel1 : pylt (addDays 7 (weekFloor s)) e = true →
            (toordinal e - toordinal (addDays 7 (weekFloor s))).toNat <
              (toordinal e - toordinal (weekFloor s)).toNat := by
          intro hg'
          have h2 : toordinal (addDays 7 (weekFloor s)) ≤ toordinal e :=
            ord_le_of_sec_le hstep.1 he (le_of_lt ((pylt_iff _ _).mp hg'))
          rw [hstep.2] at h2 ⊢
          push_cast at h2 ⊢
          omega
        have spec := weekLoop_spec s e he
          ((toordinal e - toordinal (weekFloor s)).toNat)
          (addDays 7 (weekFloor s)) hstep.1 hb7 (le_of_lt hscs) hfuel1
        have hunf : generate_buckets s e .week =
            (s, pymin (addDays 7 (weekFloor s)) e) ::
              weekLoop s e ((toordinal e - toordinal (weekFloor s)).toNat)
                (addDays 7 (weekFloor s)) := by
          rw [generate_buckets_week]
          unfold loopFuel
          rw [weekLoop_succ, if_pos hg0, if_pos hcond, List.singleton_append, hmax]
        rw [hunf]
        refine ⟨?_, ?_, ?_, ?_, ?_⟩
        · intro p hp
          rcases List.mem_cons.mp hp with hp | hp
          · subst hp
            exact ⟨hs, le_refl _, hse, Or.inr ⟨hmax.symm, rfl⟩⟩
          · obtain ⟨h1, h2, h3, h4, h5⟩ := spec.1 p hp
            exact ⟨h1, h3, h4, Or.inl ⟨h2, h5⟩⟩
        · rw [List.chain'_cons']
          refine ⟨?_, spec.2.1⟩
          intro q hq
          by_cases hrg : pylt (addDays 7 (weekFloor s)) e = true
          case neg =>
            rw [Bool.not_eq_true] at hrg
            rw [spec.2.2.2.1 hrg] at hq
            simp at hq
          case pos =>
            rw [spec.2.2.1 hrg] at hq
            simp only [Option.mem_def, Option.some_inj] at hq
            rw [← hq]
            dsimp only
            rw [pymin_eq_left (le_of_lt ((pylt_iff _ _).mp hrg))]
        · intro p hp
          rw [List.head?_cons, Option.some_inj] at hp
          rw [← hp, hmax]
        · intro p hp
          rcases hrest : weekLoop s e ((toordinal e - toordinal (weekFloor s)).toNat)
              (addDays 7 (weekFloor s)) with _ | ⟨r, rs⟩
          · rw [hrest] at hp
            simp only [List.getLast?_singleton, Option.some_inj] at hp
            have hg' : pylt (addDays 7 (weekFloor s)) e = false := by
              rcases hgc : pylt (addDays 7 (weekFloor s)) e with _ | _
              · rfl
              · have hh := spec.2.2.1 hgc
                rw [hrest] at hh
                simp at hh
            have hse2 : toSeconds e ≤ toSeconds (addDays 7 (weekFloor s)) :=
              (pylt_false_iff _ _).mp hg'
            rw [← hp]
            dsimp only
            rw [toSeconds_pymin]
            exact min_eq_right hse2
          · rw [hrest, List.getLast?_cons_cons] at hp
            exact spec.2.2.2.2 p (by rw [hrest]; exact hp)
        · intro _
          simp
      · push_neg at hse
        have hskip1 : pyle s (weekFloor s) = false := (pyle_false_iff _ _).mpr hsec0
        have hskip2 : pylt s (pymin (addDays 7 (weekFloor s)) e) = false := by
          rw [pylt_false_iff, toSeconds_pymin]
          exact le_trans (min_le_right _ _) hse
        have hg7 : pylt (addDays 7 (weekFloor s)) e = false := by
          rw [pylt_false_iff]
          linarith
        have spec := weekLoop_spec s e he
          ((toordinal e - toordinal (weekFloor s)).toNat)
          (addDays 7 (weekFloor s)) hstep.1 hb7 (le_of_lt hscs) (fun hg' => by
            rw [hg'] at hg7
            exact absurd hg7 (by simp))
        have hunf : generate_buckets s e .week = [] := by
          rw [generate_buckets_week]
          unfold loopFuel
          rw [weekLoop_succ, if_pos hg0, if_neg (by rw [hskip1, hskip2]; simp),
            List.nil_append, spec.2.2.2.1 hg7]
        rw [hunf]
        refine ⟨by simp, by simp, by simp, by simp, ?_⟩
        intro hlt
        linarith
    · have hg0' : pylt (weekFloor s) e = false := by rwa [Bool.not_eq_true] at hg0
      have hse : toSeconds e ≤ toSeconds (weekFloor s) := (pylt_false_iff _ _).mp hg0'
      have hunf : generate_buckets s e .week = [] := by
        rw [generate_buckets_week]
        unfold loopFuel
        rw [weekLoop_succ, if_neg hg0]
      rw [hunf]
      refine ⟨by simp, by simp, by simp, by simp, ?_⟩
      intro hlt
      linarith

end Sla

open Sla in
/-- Counterexample to C5 as stated: for a day-bucket query starting at
1970-01-01 01:00 UTC (not on a midnight boundary) and ending at 1970-01-03
00:00 UTC, `_generate_buckets` drops the first partial day entirely (the
`current >= start_time` test fails for the midnight before `start`), so the
first returned bucket starts at 1970-01-02 00:00, not at `start` as the
claim's clipping would require. -/
theorem C5_counterexample_first_day_bucket_dropped :
    generate_buckets
      { year := 1970, month := 1, day := 1, hour := 1, minute := 0, second := 0,
        microsecond := 0 }
      { year := 1970, month := 1, day := 3, hour := 0, minute := 0, second := 0,
        microsecond := 0 } .day =
      [({ year := 1970, month := 1, day := 2, hour := 0, minute := 0, second := 0,
          microsecond := 0 },
        { year := 1970, month := 1, day := 3, hour := 0, minute := 0, second := 0,
          microsecond := 0 })] ∧
    ({ year := 1970, month := 1, day := 2, hour := 0, minute := 0, second := 0,
        microsecond := 0 } : PyDateTime) ≠
      { year := 1970, month := 1, day := 1, hour := 1, minute := 0, second := 0,
        microsecond := 0 } := by
  constructor
  · decide
  · decide

open Sla in
/-- C5 (amended).  For every bucketed SLA query over valid datetimes:
each bucket's metrics equal `calculate_metrics` applied to that bucket's
range; buckets are aligned (day: midnight, week: ISO Monday 00:00, month:
first-of-month 00:00), lie inside `[start, end)`, end at the next aligned
boundary clipped to `end`, abut each other, and the last bucket (when any)
ends at `end`.  A *first partial bucket is clipped to start at `start` only
for week buckets*; for day and month buckets a partial first bucket whose
aligned boundary precedes `start` is dropped entirely, so the first returned
bucket starts at the first aligned boundary at or after `start` (and the
bucket list is non-empty exactly when that boundary — for week, `start`
itself — precedes `end`). -/
theorem C5_bucketed_metrics (checks : List Sla.MonitorCheck)
    (windows : List Sla.DowntimeWindow) (percentiles : List ℕ)
    (start_time end_time : PyDateTime)
    (hs : Valid start_time) (he : Valid end_time) :
    (∀ bucket_type,
      get_bucketed_metrics checks windows start_time end_time bucket_type percentiles =
        (generate_buckets start_time end_time bucket_type).map (fun b =>
          calculate_metrics checks windows (toSeconds b.1) (toSeconds b.2) percentiles)) ∧
    ((∀ p ∈ generate_buckets start_time end_time .day,
        Valid p.1 ∧ isMidnight p.1 = true ∧
        toSeconds start_time ≤ toSeconds p.1 ∧ toSeconds p.1 < toSeconds end_time ∧
        p.2 = pymin (addOneDay p.1) end_time) ∧
      (generate_buckets start_time end_time .day).Chain' (fun p q => q.1 = p.2) ∧
      (∀ p, (generate_buckets start_time end_time .day).head? = some p →
        p.1 = firstDayBoundary start_time) ∧
      (∀ p, (generate_buckets start_time end_time .day).getLast? = some p →
        toSeconds p.2 = toSeconds end_time) ∧
      (toSeconds (firstDayBoundary start_time) < toSeconds end_time →
        generate_buckets start_time end_time .day ≠ [])) ∧
    ((∀ p ∈ generate_buckets start_time end_time .week,
        Valid p.1 ∧
        toSeconds start_time ≤ toSeconds p.1 ∧ toSeconds p.1 < toSeconds end_time ∧
        ((isWeekBoundary p.1 = true ∧ p.2 = pymin (addDays 7 p.1) end_time) ∨
         (p.1 = pymax (weekFloor start_time) start_time ∧
          p.2 = pymin (addDays 7 (weekFloor start_time)) end_time))) ∧
      (generate_buckets start_time end_time .week).Chain' (fun p q => q.1 = p.2) ∧
      (∀ p, (generate_buckets start_time end_time .week).head? = some p →
        p.1 = pymax (weekFloor start_time) start_time) ∧
      (∀ p, (generate_buckets start_time end_time .week).getLast? = some p →
        toSeconds p.2 = toSeconds end_time) ∧
      (toSeconds start_time < toSeconds end_time →
        generate_buckets start_time end_time .week ≠ [])) ∧
    ((∀ p ∈ generate_buckets start_time end_time .month,
        Valid p.1 ∧ isMonthBoundary p.1 = true ∧
        toSeconds start_time ≤ toSeconds p.1 ∧ toSeconds p.1 < toSeconds end_time ∧
        p.2 = pymin (nextMonthD p.1) end_time) ∧
      (generate_buckets start_time end_time .month).Chain' (fun p q => q.1 = p.2) ∧
      (∀ p, (generate_buckets start_time end_time .month).head? = some p →
        p.1 = firstMonthBoundary start_time) ∧
      (∀ p, (generate_buckets start_time end_time .month).getLast? = some p →
        toSeconds p.2 = toSeconds end_time) ∧
      (toSeconds (firstMonthBoundary start_time) < toSeconds end_time →
        generate_buckets start_time end_time .month ≠ [])) :=
  ⟨fun _ => rfl,
   generate_buckets_day_spec hs he,
   generate_buckets_week_spec hs he,
   generate_buckets_month_spec hs he⟩

open Sla in
/-- Witness for the amended C5 at concrete inputs: querying day buckets from
1970-01-01 01:00 to 1970-01-03 00:00, the bucket list is the map of
`calculate_metrics` over the generated buckets, it is non-empty, and its
head starts at the first midnight at or after `start` (1970-01-02 00:00). -/
theorem C5_bucketed_metrics_witness :
    (get_bucketed_metrics [] []
        { year := 1970, month := 1, day := 1, hour := 1, minute := 0, second := 0,
          microsecond := 0 }
        { year := 1970, month := 1, day := 3, hour := 0, minute := 0, second := 0,
          microsecond := 0 } .day [] =
      (generate_buckets
          { year := 1970, month := 1, day := 1, hour := 1, minute := 0, second := 0,
            microsecond := 0 }
          { year := 1970, month := 1, day := 3, hour := 0, minute := 0, second := 0,
            microsecond := 0 } .day).map (fun b =>
        calculate_metrics [] [] (toSeconds b.1) (toSeconds b.2) [])) ∧
    generate_buckets
      { year := 1970, month := 1, day := 1, hour := 1, minute := 0, second := 0,
        microsecond := 0 }
      { year := 1970, month := 1, day := 3, hour := 0, minute := 0, second := 0,
        microsecond := 0 } .day ≠ [] ∧
    ({ year := 1970, month := 1, day := 2, hour := 0, minute := 0, second := 0,
        microsecond := 0 } : PyDateTime) =
      firstDayBoundary
        { year := 1970, month := 1, day := 1, hour := 1, minute := 0, second := 0,
          microsecond := 0 } := by
  have h := C5_bucketed_metrics [] [] []
    { year := 1970, month := 1, day := 1, hour := 1, minute := 0, second := 0,
      microsecond := 0 }
    { year := 1970, month := 1, day := 3, hour := 0, minute := 0, second := 0,
      microsecond := 0 } (by decide) (by decide)
  refine ⟨h.1 .day, h.2.1.2.2.2.2 ((micros_lt_iff _ _).mp (by decide)), ?_⟩
  exact h.2.1.2.2.1
    ({ year := 1970, month := 1, day := 2, hour := 0, minute := 0, second := 0,
        microsecond := 0 },
     { year := 1970, month := 1, day := 3, hour := 0, minute := 0, second := 0,
        microsecond := 0 }) (by decide)
